import Mathlib

/-! Terrain height queries, terrain mesh generation and vehicle integration.

A shallow embedding of the core of `src/main.cpp` (classes `Terrain` and `Vehicle`).

Modelling conventions.

* `float` values are elements of an arbitrary ordered field `α` with a floor function
  (`ℚ` for evaluation, `ℝ` with the real sine and cosine for statements about the generated
  heights).  Rounding, infinities and NaN are not modelled; float literals such as `0.1f`
  stand for the exact decimal.
* `int` values are integers; signed overflow is undefined behaviour in C++ and is not
  modelled.  The conversion `(int)x` truncates toward zero.
* `std::vector<T>` is a `List`.  `operator[]` outside the vector is undefined behaviour in
  C++: reads and writes are checked here and yield `none` when out of range, so that a
  function returning `some _` has performed only in-range accesses.
* `sin` and `cos` come from the C library and are passed in as a parameter (`Libm`).
* OpenGL calls (texture creation, buffer upload, drawing) have no effect on the fields
  modelled here and are left out.
-/

set_option linter.unusedSectionVars false

namespace RacingGame

/-! ## Library stand-ins -/

/-- The two C library functions used by `Terrain::generateHeight`. -/
structure Libm (α : Type) where
  sin : α → α
  cos : α → α

/-- The C++ conversion `(int)x` of a float: truncation toward zero. -/
def floatToInt {α : Type} [LinearOrderedField α] [FloorRing α] (x : α) : Int :=
  if 0 ≤ x then ⌊x⌋ else ⌈x⌉

/-- Checked `v[i]` (read) on a `std::vector`. -/
def vecGet {β : Type} (v : List β) (i : Int) : Option β :=
  if 0 ≤ i then v[i.toNat]? else none

/-- Checked `v[i] = a` (write) on a `std::vector`. -/
def vecSet {β : Type} (v : List β) (i : Int) (a : β) : Option (List β) :=
  if 0 ≤ i ∧ i.toNat < v.length then some (v.set i.toNat a) else none

/-- The call `v.resize(n)` with an `int` argument: existing elements are kept, new ones are
value-initialised; a negative `n` converts to a huge `size_t` and the call throws. -/
def vecResize {β : Type} [Zero β] (v : List β) (n : Int) : Option (List β) :=
  if n < 0 then none else some (v.take n.toNat ++ List.replicate (n.toNat - v.length) 0)

/-- The loop `for (int i = 0; i < n; i++) body`, threading the mutated state. -/
def forRange {σ : Type} (n : Int) (body : Nat → σ → Option σ) (s : σ) : Option σ :=
  (List.range n.toNat).foldlM (fun acc i => body i acc) s

/-! ## Terrain -/

/-- The fields of `class Terrain` that the height and mesh code reads or writes. -/
structure Terrain (α : Type) where
  width : Int
  height : Int
  heights : List α
  indices : List Nat
  vertices : List α

section Defs

variable {α : Type} [LinearOrderedField α] [FloorRing α]

/-- Embedding of `Terrain::generateHeight`. -/
def Terrain.generateHeight (m : Libm α) (x z : Int) : α :=
  let scale : α := 1 / 10
  let amplitude : α := 5
  let height : α := 0
  let height := height + m.sin ((x : α) * scale) * m.cos ((z : α) * scale) * amplitude
  let height := height +
    m.sin ((x : α) * scale * (1 / 2)) * m.cos ((z : α) * scale * (1 / 2)) * amplitude * (1 / 2)
  let height := height +
    m.sin ((x : α) * scale * (1 / 4)) * m.cos ((z : α) * scale * (1 / 4)) * amplitude * (1 / 4)
  height

/-- The eight floats pushed for grid cell `(x, z)` by the vertex loop of
`Terrain::generateMesh`, given the height `y` read for that cell. -/
def Terrain.vertexRecord (x z : Nat) (y : α) : List α :=
  [(x : α), y, (z : α), 0, 1, 0, (x : α) * (1 / 10), (z : α) * (1 / 10)]

/-- The six indices pushed for cell `(x, z)` by the index loop of `Terrain::generateMesh`. -/
def Terrain.quadIndices (width : Int) (x z : Nat) : List Nat :=
  let topLeft : Nat := ((z : Int) * width + (x : Int)).toNat
  let topRight : Nat := topLeft + 1
  let bottomLeft : Nat := (((z : Int) + 1) * width + (x : Int)).toNat
  let bottomRight : Nat := bottomLeft + 1
  [topLeft, bottomLeft, topRight, topRight, bottomLeft, bottomRight]

/-- Embedding of `Terrain::generateMesh`. -/
def Terrain.generateMesh (t : Terrain α) : Option (Terrain α) := do
  let vertices : List α := []
  let indices : List Nat := []
  let vertices ← forRange t.height (fun z vs =>
    forRange t.width (fun x vs => do
      let y ← vecGet t.heights ((z : Int) * t.width + (x : Int))
      pure (vs ++ Terrain.vertexRecord x z y)) vs) vertices
  let indices ← forRange (t.height - 1) (fun z is =>
    forRange (t.width - 1) (fun x is =>
      pure (is ++ Terrain.quadIndices t.width x z)) is) indices
  pure { t with vertices := vertices, indices := indices }

/-- Embedding of `Terrain::generateTerrain`. -/
def Terrain.generateTerrain (m : Libm α) (t : Terrain α) : Option (Terrain α) := do
  let heights ← vecResize t.heights (t.width * t.height)
  let heights ← forRange t.height (fun z hs =>
    forRange t.width (fun x hs =>
      let heightValue := Terrain.generateHeight m (x : Int) (z : Int)
      vecSet hs ((z : Int) * t.width + (x : Int)) heightValue) hs) heights
  Terrain.generateMesh { t with heights := heights }

/-- The constructor `Terrain::Terrain(int w, int h)` (named `construct`, as `Terrain.Terrain`
would shadow the structure inside its own namespace). -/
def Terrain.construct (m : Libm α) (w h : Int) : Option (Terrain α) :=
  Terrain.generateTerrain m
    { width := w, height := h, heights := [], indices := [], vertices := [] }

/-- The bounds guard of `Terrain::getHeight` on the truncated coordinates. -/
def Terrain.outOfBounds (t : Terrain α) (gridX gridZ : Int) : Prop :=
  gridX < 0 ∨ gridX ≥ t.width - 1 ∨ gridZ < 0 ∨ gridZ ≥ t.height - 1

instance (t : Terrain α) (gridX gridZ : Int) : Decidable (t.outOfBounds gridX gridZ) := by
  unfold Terrain.outOfBounds; infer_instance

/-- Embedding of `Terrain::getHeight`. -/
def Terrain.getHeight (t : Terrain α) (x z : α) : Option α :=
  let gridX : Int := floatToInt x
  let gridZ : Int := floatToInt z
  if t.outOfBounds gridX gridZ then
    some 0
  else do
    let xCoord : α := x - (gridX : α)
    let zCoord : α := z - (gridZ : α)
    let h00 ← vecGet t.heights (gridZ * t.width + gridX)
    let h10 ← vecGet t.heights (gridZ * t.width + gridX + 1)
    let h01 ← vecGet t.heights ((gridZ + 1) * t.width + gridX)
    let h11 ← vecGet t.heights ((gridZ + 1) * t.width + gridX + 1)
    let h0 := h00 * (1 - xCoord) + h10 * xCoord
    let h1 := h01 * (1 - xCoord) + h11 * xCoord
    pure (h0 * (1 - zCoord) + h1 * zCoord)

/-- The class invariant established by `generateTerrain`: one height per grid point. -/
def Terrain.WellFormed (t : Terrain α) : Prop :=
  (t.heights.length : Int) = t.width * t.height

instance (t : Terrain α) : Decidable t.WellFormed := by
  unfold Terrain.WellFormed; infer_instance

/-! ## Closed forms of the mesh buffers (used to state lemmas) -/

/-- The vertex buffer that `generateMesh` builds, written as a comprehension. -/
def Terrain.meshVertices (t : Terrain α) : List α :=
  (List.range t.height.toNat).flatMap fun z =>
    (List.range t.width.toNat).flatMap fun x =>
      Terrain.vertexRecord x z (t.heights.getD (z * t.width.toNat + x) 0)

/-- The index buffer that `generateMesh` builds, written as a comprehension. -/
def Terrain.meshIndices (width height : Int) : List Nat :=
  (List.range (height - 1).toNat).flatMap fun z =>
    (List.range (width - 1).toNat).flatMap fun x => Terrain.quadIndices width x z

/-! ## Vehicle -/

/-- A `glm::vec3`. -/
structure Vec3 (α : Type) where
  x : α
  y : α
  z : α

/-- The fields of `class Vehicle` used by `update`. -/
structure Vehicle (α : Type) where
  position : Vec3 α
  velocity : Vec3 α
  rotation : Vec3 α
  width : α
  height : α
  length : α

/-- The position after `position += velocity * deltaTime`. -/
def Vehicle.integrate (v : Vehicle α) (deltaTime : α) : Vec3 α :=
  { x := v.position.x + v.velocity.x * deltaTime
    y := v.position.y + v.velocity.y * deltaTime
    z := v.position.z + v.velocity.z * deltaTime }

/-- Embedding of `Vehicle::update`. -/
def Vehicle.update (v : Vehicle α) (deltaTime : α) (terrain : Terrain α) :
    Option (Vehicle α) := do
  let position := v.integrate deltaTime
  let velocity := v.velocity
  let terrainHeight ← terrain.getHeight position.x position.z
  let (position, velocity) :=
    if position.y > terrainHeight + v.height * (1 / 2) then
      (position, { velocity with y := velocity.y - (98 / 10) * deltaTime })
    else
      ({ position with y := terrainHeight + v.height * (1 / 2) }, { velocity with y := 0 })
  let velocity := { velocity with x := velocity.x * (95 / 100), z := velocity.z * (95 / 100) }
  pure { v with position := position, velocity := velocity }

/-- The interpolation part of `Terrain::getHeight` (the statements after the guard), as a
function of the cell `(gridX, gridZ)` and the offsets `(xCoord, zCoord)`. -/
def Terrain.cellHeight (t : Terrain α) (gridX gridZ : Int) (xCoord zCoord : α) : Option α := do
  let h00 ← vecGet t.heights (gridZ * t.width + gridX)
  let h10 ← vecGet t.heights (gridZ * t.width + gridX + 1)
  let h01 ← vecGet t.heights ((gridZ + 1) * t.width + gridX)
  let h11 ← vecGet t.heights ((gridZ + 1) * t.width + gridX + 1)
  let h0 := h00 * (1 - xCoord) + h10 * xCoord
  let h1 := h01 * (1 - xCoord) + h11 * xCoord
  pure (h0 * (1 - zCoord) + h1 * zCoord)

/-- The constructor `Vehicle::Vehicle(float w, float h, float l)`; the mesh it uploads is
left out. -/
def Vehicle.construct (w h l : α) : Vehicle α :=
  { position := { x := 50, y := 10, z := 50 }
    velocity := { x := 0, y := 0, z := 0 }
    rotation := { x := 0, y := 0, z := 0 }
    width := w
    height := h
    length := l }

/-- The declaration `Vehicle vehicle;` of `main`: the constructor with its default arguments
`w = 2.0f, h = 1.0f, l = 4.0f`. -/
def Vehicle.constructDefault : Vehicle α :=
  Vehicle.construct 2 1 4

/-- The library function `glm::radians` used by `processInput`. -/
structure Glm (α : Type) where
  radians : α → α

/-- The four arrow keys polled by `processInput`: `true` when `glfwGetKey` returns
`GLFW_PRESS`. -/
structure Keys where
  up : Bool
  down : Bool
  left : Bool
  right : Bool

/-- The vehicle part of `processInput` (the block under `if (globalVehicle)`), acting on the
vehicle that `globalVehicle` points to; `deltaTime` is the global frame time. -/
def processInput (m : Libm α) (glm : Glm α) (keys : Keys) (deltaTime : α) (v : Vehicle α) :
    Vehicle α :=
  let speed : α := 10
  let rotationSpeed : α := 90
  let v :=
    if keys.up then
      let angle := glm.radians v.rotation.y
      { v with velocity := { v.velocity with x := -m.sin angle * speed
                                             z := -m.cos angle * speed } }
    else v
  let v :=
    if keys.down then
      let angle := glm.radians v.rotation.y
      { v with velocity := { v.velocity with x := m.sin angle * speed
                                             z := m.cos angle * speed } }
    else v
  let v :=
    if keys.left then
      { v with rotation := { v.rotation with y := v.rotation.y + rotationSpeed * deltaTime } }
    else v
  let v :=
    if keys.right then
      { v with rotation := { v.rotation with y := v.rotation.y - rotationSpeed * deltaTime } }
    else v
  let v :=
    if keys.up ≠ true ∧ keys.down ≠ true then
      { v with velocity := { v.velocity with x := v.velocity.x * (8 / 10)
                                             z := v.velocity.z * (8 / 10) } }
    else v
  v

/-- One iteration of the render loop of `main` as far as the vehicle is concerned:
`processInput(window)` followed by `vehicle.update(deltaTime, terrain)`. -/
def frame (m : Libm α) (glm : Glm α) (keys : Keys) (deltaTime : α) (terrain : Terrain α)
    (v : Vehicle α) : Option (Vehicle α) :=
  (processInput m glm keys deltaTime v).update deltaTime terrain

end Defs

/-- A hand-written 3 × 3 terrain over the rationals, used to instantiate statements. -/
def sampleTerrain : Terrain ℚ :=
  { width := 3, height := 3, heights := [0, 1, 2, 3, 4, 5, 6, 7, 8], indices := [],
    vertices := [] }

/-- A vehicle of the default size (2 × 1 × 4) resting at the origin corner of the grid, at
half its height above zero. -/
def sampleVehicle : Vehicle ℚ :=
  { position := { x := 0, y := 1 / 2, z := 0 }, velocity := { x := 0, y := 0, z := 0 },
    rotation := { x := 0, y := 0, z := 0 }, width := 2, height := 1, length := 4 }

/-! ## Auxiliary lemmas -/

theorem foldlM_range_inv {σ : Type} (body : Nat → σ → Option σ) (Inv : Nat → σ → Prop)
    (s0 : σ) (k : Nat) (h0 : Inv 0 s0)
    (hstep : ∀ i s, i < k → Inv i s → ∃ s', body i s = some s' ∧ Inv (i + 1) s') :
    ∃ s', (List.range k).foldlM (fun acc i => body i acc) s0 = some s' ∧ Inv k s' := by
  induction k with
  | zero => exact ⟨s0, rfl, h0⟩
  | succ k ih =>
    obtain ⟨s1, hs1, hinv1⟩ := ih (fun i s hi => hstep i s (Nat.lt_succ_of_lt hi))
    obtain ⟨s2, hs2, hinv2⟩ := hstep k s1 (Nat.lt_succ_self k) hinv1
    refine ⟨s2, ?_, hinv2⟩
    rw [List.range_succ, List.foldlM_append, hs1]
    simp [hs2]

theorem forRange_inv {σ : Type} (n : Int) (body : Nat → σ → Option σ) (Inv : Nat → σ → Prop)
    (s0 : σ) (h0 : Inv 0 s0)
    (hstep : ∀ i s, i < n.toNat → Inv i s → ∃ s', body i s = some s' ∧ Inv (i + 1) s') :
    ∃ s', forRange n body s0 = some s' ∧ Inv n.toNat s' :=
  foldlM_range_inv body Inv s0 n.toNat h0 hstep

theorem length_flatMap_range {β : Type} (c : Nat) (g : Nat → List β)
    (hg : ∀ i, (g i).length = c) (n : Nat) :
    ((List.range n).flatMap g).length = c * n := by
  induction n with
  | zero => simp
  | succ n ih =>
    rw [List.range_succ, List.flatMap_append, List.length_append, ih]
    simp [hg, Nat.mul_succ]

theorem getElem?_flatMap_range {β : Type} (c : Nat) (g : Nat → List β)
    (hg : ∀ i, (g i).length = c) (n i k : Nat) (hi : i < n) (hk : k < c) :
    ((List.range n).flatMap g)[c * i + k]? = (g i)[k]? := by
  induction n with
  | zero => omega
  | succ n ih =>
    rw [List.range_succ, List.flatMap_append]
    have hlen := length_flatMap_range c g hg n
    rcases Nat.lt_succ_iff_lt_or_eq.mp hi with hlt | heq
    · have hb : c * i + k < c * n := by
        have : c * (i + 1) ≤ c * n := Nat.mul_le_mul_left c hlt
        rw [Nat.mul_succ] at this
        omega
      rw [List.getElem?_append_left (by rw [hlen]; exact hb)]
      exact ih hlt
    · subst heq
      rw [List.getElem?_append_right (by rw [hlen]; omega), hlen]
      simp

theorem forRange_append {β : Type} (n : Int) (body : Nat → List β → Option (List β))
    (g : Nat → List β) (s0 : List β)
    (hbody : ∀ i s, i < n.toNat → body i s = some (s ++ g i)) :
    forRange n body s0 = some (s0 ++ (List.range n.toNat).flatMap g) := by
  obtain ⟨s', hs', hinv⟩ := forRange_inv n body
    (fun k s => s = s0 ++ (List.range k).flatMap g) s0 (by simp)
    (fun i s hi hs => ⟨s ++ g i, hbody i s hi, by
      show s ++ g i = s0 ++ (List.range (i + 1)).flatMap g
      have hs : s = s0 ++ (List.range i).flatMap g := hs
      rw [hs, List.range_succ, List.flatMap_append]; simp⟩)
  rw [hs', hinv]

theorem grid_index_lt {x z W H : Nat} (hx : x < W) (hz : z < H) : z * W + x < W * H := by
  have h1 : (z + 1) * W ≤ H * W := Nat.mul_le_mul_right W hz
  rw [Nat.succ_mul] at h1
  rw [Nat.mul_comm W H]
  omega

theorem vecGet_natCast {β : Type} (v : List β) (i : Nat) : vecGet v (i : Int) = v[i]? := by
  simp [vecGet]

theorem vecSet_natCast {β : Type} (v : List β) (i : Nat) (a : β) :
    vecSet v (i : Int) a = if i < v.length then some (v.set i a) else none := by
  simp [vecSet]

theorem getElem?_grid {β : Type} (c W H : Nat) (g : Nat → Nat → List β)
    (hg : ∀ z x, (g z x).length = c) (z x k : Nat) (hz : z < H) (hx : x < W) (hk : k < c) :
    ((List.range H).flatMap fun z => (List.range W).flatMap (g z))[c * (z * W + x) + k]?
      = (g z x)[k]? := by
  have hrow : ∀ z, ((List.range W).flatMap (g z)).length = c * W :=
    fun z => length_flatMap_range c (g z) (hg z) W
  have hin : c * x + k < c * W := by
    have : c * (x + 1) ≤ c * W := Nat.mul_le_mul_left c hx
    rw [Nat.mul_succ] at this
    omega
  have hsplit : c * (z * W + x) + k = c * W * z + (c * x + k) := by ring
  rw [hsplit, getElem?_flatMap_range (c * W) _ hrow H z (c * x + k) hz hin]
  exact getElem?_flatMap_range c (g z) (hg z) W x k hx hk

theorem take_drop_grid {β : Type} (c W H : Nat) (g : Nat → Nat → List β)
    (hg : ∀ z x, (g z x).length = c) (z x : Nat) (hz : z < H) (hx : x < W) :
    (((List.range H).flatMap fun z => (List.range W).flatMap (g z)).drop
      (c * (z * W + x))).take c = g z x := by
  apply List.ext_getElem?
  intro k
  rw [List.getElem?_take]
  split
  · rename_i hk
    rw [List.getElem?_drop]
    exact getElem?_grid c W H g hg z x k hz hx hk
  · rename_i hk
    rw [List.getElem?_eq_none (by rw [hg]; omega)]

theorem length_grid {β : Type} (c W H : Nat) (g : Nat → Nat → List β)
    (hg : ∀ z x, (g z x).length = c) :
    ((List.range H).flatMap fun z => (List.range W).flatMap (g z)).length = c * (W * H) := by
  rw [length_flatMap_range (c * W) _ (fun z => length_flatMap_range c (g z) (hg z) W) H]
  ring

section Lemmas

variable {α : Type} [LinearOrderedField α] [FloorRing α]

theorem Terrain.generateMesh_eq (t : Terrain α) (hwf : t.WellFormed) :
    t.generateMesh = some { t with vertices := t.meshVertices,
                                   indices := Terrain.meshIndices t.width t.height } := by
  unfold Terrain.WellFormed at hwf
  have hv : forRange t.height (fun z vs =>
      forRange t.width (fun x vs => do
        let y ← vecGet t.heights ((z : Int) * t.width + (x : Int))
        pure (vs ++ Terrain.vertexRecord x z y)) vs) ([] : List α) = some t.meshVertices := by
    rw [forRange_append t.height _ (fun z => (List.range t.width.toNat).flatMap fun x =>
      Terrain.vertexRecord x z (t.heights.getD (z * t.width.toNat + x) 0))]
    · simp [Terrain.meshVertices]
    · intro z s hz
      apply forRange_append
      intro x s' hx
      have hw : t.width = (t.width.toNat : Int) := by omega
      have hh : t.height = (t.height.toNat : Int) := by omega
      have hidx : (z : Int) * t.width + (x : Int) = ((z * t.width.toNat + x : Nat) : Int) := by
        rw [hw]; push_cast; simp
      have hlt : z * t.width.toNat + x < t.heights.length := by
        have := grid_index_lt hx hz
        have h2 : (t.heights.length : Int) = ((t.width.toNat * t.height.toNat : Nat) : Int) := by
          rw [hwf]; push_cast; rw [← hw, ← hh]
        have h3 : t.heights.length = t.width.toNat * t.height.toNat := by exact_mod_cast h2
        omega
      rw [hidx, vecGet_natCast, List.getElem?_eq_getElem hlt]
      simp [List.getElem?_eq_getElem hlt]
  have hi : forRange (t.height - 1) (fun z is =>
      forRange (t.width - 1) (fun x is =>
        pure (is ++ Terrain.quadIndices t.width x z)) is) ([] : List Nat)
      = some (Terrain.meshIndices t.width t.height) := by
    rw [forRange_append (t.height - 1) _ (fun z => (List.range (t.width - 1).toNat).flatMap fun x =>
      Terrain.quadIndices t.width x z)]
    · simp [Terrain.meshIndices]
    · intro z s _
      apply forRange_append
      intro x s' _
      rfl
  unfold Terrain.generateMesh
  simp only [hv, hi]
  rfl

/-- The height loop of `generateTerrain` succeeds on a vector of the right size and leaves
`generateHeight x z` at position `z * width + x`. -/
theorem Terrain.fill_heights (m : Libm α) (w h : Int) (hs0 : List α)
    (hlen : (hs0.length : Int) = w * h) :
    ∃ hs, forRange h (fun z hs =>
        forRange w (fun x hs =>
          let heightValue := Terrain.generateHeight m (x : Int) (z : Int)
          vecSet hs ((z : Int) * w + (x : Int)) heightValue) hs) hs0 = some hs ∧
      hs.length = hs0.length ∧
      ∀ x z : Nat, x < w.toNat → z < h.toNat →
        hs[z * w.toNat + x]? = some (Terrain.generateHeight m (x : Int) (z : Int)) := by
  obtain ⟨hs, hrun, hl, hall⟩ := forRange_inv h _
    (fun k hs => hs.length = hs0.length ∧ ∀ x z : Nat, x < w.toNat → z < k →
      hs[z * w.toNat + x]? = some (Terrain.generateHeight m (x : Int) (z : Int))) hs0
    ⟨rfl, fun x z _ hz => absurd hz (Nat.not_lt_zero z)⟩
    (fun z hs hz hinv => by
      obtain ⟨hl, hrows⟩ := hinv
      obtain ⟨hs', hrun', hl', hrow', hcur⟩ := forRange_inv w
        (fun x hs => vecSet hs ((z : Int) * w + (x : Int))
          (Terrain.generateHeight m (x : Int) (z : Int)))
        (fun j hs' => hs'.length = hs0.length ∧
          (∀ x z' : Nat, x < w.toNat → z' < z →
            hs'[z' * w.toNat + x]? = some (Terrain.generateHeight m (x : Int) (z' : Int))) ∧
          ∀ x : Nat, x < j →
            hs'[z * w.toNat + x]? = some (Terrain.generateHeight m (x : Int) (z : Int))) hs
        ⟨hl, hrows, fun x hx => absurd hx (Nat.not_lt_zero x)⟩
        (fun x hs' hx hinv' => by
          obtain ⟨hl', hrows', hcur'⟩ := hinv'
          have hw : w = (w.toNat : Int) := by omega
          have hh : h = (h.toNat : Int) := by omega
          have hidx : (z : Int) * w + (x : Int) = ((z * w.toNat + x : Nat) : Int) := by
            rw [hw]; push_cast; simp
          have hN : hs0.length = w.toNat * h.toNat := by
            have h2 : (hs0.length : Int) = ((w.toNat * h.toNat : Nat) : Int) := by
              rw [hlen]; push_cast; rw [← hw, ← hh]
            exact_mod_cast h2
          have hlt : z * w.toNat + x < hs'.length := by
            have := grid_index_lt hx hz
            omega
          refine ⟨hs'.set (z * w.toNat + x) (Terrain.generateHeight m (x : Int) (z : Int)),
            ?_, ?_, ?_, ?_⟩
          · show vecSet hs' ((z : Int) * w + (x : Int)) _ = _
            rw [hidx, vecSet_natCast, if_pos hlt]
          · simp [hl']
          · intro x' z' hx' hz'
            rw [List.getElem?_set]
            have hne : z * w.toNat + x ≠ z' * w.toNat + x' := by
              have h1 : (z' + 1) * w.toNat ≤ z * w.toNat := Nat.mul_le_mul_right _ hz'
              rw [Nat.succ_mul] at h1
              omega
            rw [if_neg hne]
            exact hrows' x' z' hx' hz'
          · intro x' hx'
            rw [List.getElem?_set]
            by_cases hxx : x' = x
            · subst hxx
              simp [hlt]
            · have hne : z * w.toNat + x ≠ z * w.toNat + x' := by omega
              rw [if_neg hne]
              exact hcur' x' (by omega))
      refine ⟨hs', hrun', hl', ?_⟩
      intro x z' hx hz'
      rcases Nat.lt_succ_iff_lt_or_eq.mp hz' with hlt | heq
      · exact hrow' x z' hx hlt
      · subst heq
        exact hcur x hx)
  exact ⟨hs, hrun, hl, hall⟩

theorem length_vecResize (v : List α) (n : Int) (hn : 0 ≤ n) :
    ∃ v', vecResize v n = some v' ∧ (v'.length : Int) = n := by
  refine ⟨_, if_neg (not_lt.mpr hn), ?_⟩
  rw [List.length_append, List.length_take, List.length_replicate]
  omega

/-- What `generateTerrain` leaves in the terrain: it succeeds exactly when the product
`width * height` is not negative, the heights are the generated samples and the two mesh
buffers are rebuilt from them. -/
theorem Terrain.generateTerrain_spec (m : Libm α) (t : Terrain α)
    (hwh : 0 ≤ t.width * t.height) :
    ∃ hs : List α, (hs.length : Int) = t.width * t.height ∧
      (∀ x z : Nat, x < t.width.toNat → z < t.height.toNat →
        hs[z * t.width.toNat + x]? = some (Terrain.generateHeight m (x : Int) (z : Int))) ∧
      t.generateTerrain m = some
        { t with heights := hs
                 vertices := Terrain.meshVertices { t with heights := hs }
                 indices := Terrain.meshIndices t.width t.height } := by
  obtain ⟨hs0, hres, hlen0⟩ := length_vecResize t.heights _ hwh
  obtain ⟨hs, hrun, hl, hall⟩ := Terrain.fill_heights m t.width t.height hs0 hlen0
  have hlen : (hs.length : Int) = t.width * t.height := by rw [hl]; exact hlen0
  refine ⟨hs, hlen, hall, ?_⟩
  unfold Terrain.generateTerrain
  rw [hres]
  simp only [Option.bind_eq_bind, Option.some_bind]
  rw [hrun]
  simp only [Option.some_bind]
  have hwf : Terrain.WellFormed { t with heights := hs } := hlen
  rw [Terrain.generateMesh_eq _ hwf]

theorem floatToInt_of_floor_nonneg (x : α) (h : 0 ≤ ⌊x⌋) : floatToInt x = ⌊x⌋ := by
  unfold floatToInt
  rw [if_pos (Int.floor_nonneg.mp h)]

theorem floatToInt_intCast (n : Int) : floatToInt (n : α) = n := by
  unfold floatToInt
  split <;> simp

/-- Inside the guard all four indices read by `getHeight` lie in `[0, width * height)`. -/
theorem Terrain.index_bounds (w h gx gz : Int) (hx0 : 0 ≤ gx) (hx1 : gx < w - 1)
    (hz0 : 0 ≤ gz) (hz1 : gz < h - 1) :
    0 ≤ gz * w + gx ∧ (gz + 1) * w + gx + 1 < w * h := by
  have h1 : 0 ≤ gz * w := mul_nonneg hz0 (by omega)
  have h2 : (gz + 2) * w ≤ h * w := mul_le_mul_of_nonneg_right (by omega) (by omega)
  constructor
  · omega
  · nlinarith

theorem vecGet_of_lt (v : List α) (i : Int) (h0 : 0 ≤ i) (h1 : i < (v.length : Int)) :
    vecGet v i = some (v.getD i.toNat 0) := by
  have hlt : i.toNat < v.length := by omega
  simp [vecGet, h0, List.getElem?_eq_getElem hlt]

/-- Inside the guard `getHeight` on a well-formed terrain is the bilinear blend of the four
surrounding samples. -/
theorem Terrain.getHeight_inBounds (t : Terrain α) (hwf : t.WellFormed) (x z : α)
    (hg : ¬ t.outOfBounds (floatToInt x) (floatToInt z)) :
    t.getHeight x z = some
      ((t.heights.getD (floatToInt z * t.width + floatToInt x).toNat 0
            * (1 - (x - (floatToInt x : α)))
          + t.heights.getD (floatToInt z * t.width + floatToInt x + 1).toNat 0
            * (x - (floatToInt x : α))) * (1 - (z - (floatToInt z : α)))
        + (t.heights.getD ((floatToInt z + 1) * t.width + floatToInt x).toNat 0
            * (1 - (x - (floatToInt x : α)))
          + t.heights.getD ((floatToInt z + 1) * t.width + floatToInt x + 1).toNat 0
            * (x - (floatToInt x : α))) * (z - (floatToInt z : α))) := by
  unfold Terrain.WellFormed at hwf
  have hg' := hg
  unfold Terrain.outOfBounds at hg'
  push_neg at hg'
  obtain ⟨hx0, hx1, hz0, hz1⟩ := hg'
  obtain ⟨hlo, hhi⟩ := Terrain.index_bounds t.width t.height _ _ hx0 hx1 hz0 hz1
  have hw : 0 < t.width := by omega
  have hzw : 0 ≤ floatToInt z * t.width := mul_nonneg hz0 (by omega)
  have e00 := vecGet_of_lt t.heights (floatToInt z * t.width + floatToInt x)
    (by omega) (by rw [hwf]; nlinarith)
  have e10 := vecGet_of_lt t.heights (floatToInt z * t.width + floatToInt x + 1)
    (by omega) (by rw [hwf]; nlinarith)
  have e01 := vecGet_of_lt t.heights ((floatToInt z + 1) * t.width + floatToInt x)
    (by nlinarith) (by rw [hwf]; omega)
  have e11 := vecGet_of_lt t.heights ((floatToInt z + 1) * t.width + floatToInt x + 1)
    (by nlinarith) (by rw [hwf]; omega)
  unfold Terrain.getHeight
  simp only [if_neg hg, e00, e10, e01, e11, Option.bind_eq_bind, Option.some_bind]
  rfl

theorem Terrain.getHeight_outOfBounds (t : Terrain α) (x z : α)
    (hg : t.outOfBounds (floatToInt x) (floatToInt z)) : t.getHeight x z = some 0 := by
  unfold Terrain.getHeight
  simp only [if_pos hg]

/-- On a well-formed terrain every height query returns a value. -/
theorem Terrain.getHeight_total (t : Terrain α) (hwf : t.WellFormed) (x z : α) :
    ∃ g, t.getHeight x z = some g := by
  by_cases hg : t.outOfBounds (floatToInt x) (floatToInt z)
  · exact ⟨_, Terrain.getHeight_outOfBounds t x z hg⟩
  · exact ⟨_, Terrain.getHeight_inBounds t hwf x z hg⟩

/-- The gravity branch of `update`, in closed form. -/
theorem Vehicle.update_airborne (v : Vehicle α) (deltaTime : α) (t : Terrain α) (g : α)
    (hg : t.getHeight (v.integrate deltaTime).x (v.integrate deltaTime).z = some g)
    (hc : (v.integrate deltaTime).y > g + v.height * (1 / 2)) :
    v.update deltaTime t = some
      { v with
        position := v.integrate deltaTime
        velocity := { x := v.velocity.x * (95 / 100)
                      y := v.velocity.y - (98 / 10) * deltaTime
                      z := v.velocity.z * (95 / 100) } } := by
  unfold Vehicle.update
  simp only [hg, Option.bind_eq_bind, Option.some_bind, if_pos hc]
  rfl

/-- The snap branch of `update`, in closed form. -/
theorem Vehicle.update_grounded (v : Vehicle α) (deltaTime : α) (t : Terrain α) (g : α)
    (hg : t.getHeight (v.integrate deltaTime).x (v.integrate deltaTime).z = some g)
    (hc : ¬ (v.integrate deltaTime).y > g + v.height * (1 / 2)) :
    v.update deltaTime t = some
      { v with
        position := { x := (v.integrate deltaTime).x
                      y := g + v.height * (1 / 2)
                      z := (v.integrate deltaTime).z }
        velocity := { x := v.velocity.x * (95 / 100)
                      y := 0
                      z := v.velocity.z * (95 / 100) } } := by
  unfold Vehicle.update
  simp only [hg, Option.bind_eq_bind, Option.some_bind, if_neg hc]
  rfl

/-- What the constructor builds: it succeeds when `w * h` is not negative, and the terrain it
returns is well formed, stores the generated samples and carries the mesh of those samples. -/
theorem Terrain.construct_spec (m : Libm α) (w h : Int) (hwh : 0 ≤ w * h) :
    ∃ t : Terrain α, Terrain.construct m w h = some t ∧ t.width = w ∧ t.height = h ∧
      t.WellFormed ∧
      (∀ x z : Nat, x < w.toNat → z < h.toNat →
        t.heights[z * w.toNat + x]? = some (Terrain.generateHeight m (x : Int) (z : Int))) ∧
      t.vertices = t.meshVertices ∧ t.indices = Terrain.meshIndices w h := by
  obtain ⟨hs, hlen, hall, hrun⟩ := Terrain.generateTerrain_spec m
    { width := w, height := h, heights := [], indices := [], vertices := [] } hwh
  exact ⟨_, hrun, rfl, rfl, hlen, hall, rfl, rfl⟩

/-- On a constructed terrain the sample stored for grid point `(x, z)` is
`generateHeight x z`. -/
theorem Terrain.construct_sample (m : Libm α) (w h : Int) (t : Terrain α)
    (ht : Terrain.construct m w h = some t) (x z : Int) (hx0 : 0 ≤ x) (hx1 : x < w)
    (hz0 : 0 ≤ z) (hz1 : z < h) :
    t.width = w ∧ t.height = h ∧ t.WellFormed ∧
      vecGet t.heights (z * w + x) = some (Terrain.generateHeight m x z) ∧
      t.heights.getD (z * w + x).toNat 0 = Terrain.generateHeight m x z := by
  obtain ⟨t', ht', hw, hh, hwf, hall, -, -⟩ :=
    Terrain.construct_spec m w h (mul_nonneg (by omega) (by omega))
  rw [ht] at ht'
  cases ht'
  have hs := hall x.toNat z.toNat (by omega) (by omega)
  have hidx : z * w + x = ((z.toNat * w.toNat + x.toNat : Nat) : Int) := by
    push_cast
    rw [Int.toNat_of_nonneg hx0, Int.toNat_of_nonneg hz0, Int.toNat_of_nonneg (by omega)]
  rw [Int.toNat_of_nonneg hx0, Int.toNat_of_nonneg hz0] at hs
  refine ⟨hw, hh, hwf, ?_, ?_⟩
  · rw [hidx, vecGet_natCast]; exact hs
  · rw [hidx, Int.toNat_natCast, List.getD_eq_getElem?_getD, hs]; rfl

/-- At an integer point inside the guard the interpolation weights are `1, 0, 0, 0`. -/
theorem Terrain.getHeight_intCast (t : Terrain α) (hwf : t.WellFormed) (x z : Int)
    (hx0 : 0 ≤ x) (hx1 : x < t.width - 1) (hz0 : 0 ≤ z) (hz1 : z < t.height - 1) :
    t.getHeight (x : α) (z : α) = some (t.heights.getD (z * t.width + x).toNat 0) := by
  have hg : ¬ t.outOfBounds (floatToInt (x : α)) (floatToInt (z : α)) := by
    rw [floatToInt_intCast, floatToInt_intCast]
    unfold Terrain.outOfBounds
    omega
  rw [Terrain.getHeight_inBounds t hwf _ _ hg, floatToInt_intCast, floatToInt_intCast]
  simp

theorem Terrain.length_quadIndices (w : Int) (x z : Nat) :
    (Terrain.quadIndices w x z).length = 6 := rfl

theorem Terrain.length_vertexRecord (x z : Nat) (y : α) :
    (Terrain.vertexRecord x z y).length = 8 := rfl

theorem Terrain.length_meshVertices (t : Terrain α) (hw : 0 ≤ t.width) (hh : 0 ≤ t.height) :
    (t.meshVertices.length : Int) = 8 * (t.width * t.height) := by
  unfold Terrain.meshVertices
  rw [length_grid 8 t.width.toNat t.height.toNat _ (fun z x => Terrain.length_vertexRecord x z _)]
  push_cast
  rw [Int.toNat_of_nonneg hw, Int.toNat_of_nonneg hh]

theorem Terrain.length_meshIndices (w h : Int) (hw : 1 ≤ w) (hh : 1 ≤ h) :
    ((Terrain.meshIndices w h).length : Int) = 6 * ((w - 1) * (h - 1)) := by
  unfold Terrain.meshIndices
  rw [length_grid 6 (w - 1).toNat (h - 1).toNat _ (fun z x => Terrain.length_quadIndices w x z)]
  push_cast
  rw [Int.toNat_of_nonneg (by omega), Int.toNat_of_nonneg (by omega)]

/-- Every index of the index buffer names a vertex of the `width × height` grid. -/
theorem Terrain.mem_meshIndices_lt (w h : Int) (i : Nat) (hi : i ∈ Terrain.meshIndices w h) :
    (i : Int) < w * h := by
  unfold Terrain.meshIndices at hi
  rw [List.mem_flatMap] at hi
  obtain ⟨z, hz, hi⟩ := hi
  rw [List.mem_flatMap] at hi
  obtain ⟨x, hx, hi⟩ := hi
  rw [List.mem_range] at hz hx
  obtain ⟨hlo, hhi⟩ := Terrain.index_bounds w h (x : Int) (z : Int) (by omega) (by omega)
    (by omega) (by omega)
  have hzw : 0 ≤ (z : Int) * w := mul_nonneg (by omega) (by omega)
  have h1 : (((z : Int) * w + (x : Int)).toNat : Int) = (z : Int) * w + (x : Int) :=
    Int.toNat_of_nonneg (by omega)
  have hexp : ((z : Int) + 1) * w = (z : Int) * w + w := by ring
  have h2 : ((((z : Int) + 1) * w + (x : Int)).toNat : Int) = ((z : Int) + 1) * w + (x : Int) :=
    Int.toNat_of_nonneg (by omega)
  simp only [Terrain.quadIndices, List.mem_cons, List.mem_singleton, List.not_mem_nil,
    or_false] at hi
  rcases hi with rfl | rfl | rfl | rfl | rfl | rfl <;> push_cast <;> omega

theorem generateHeight_real_zero_zero :
    Terrain.generateHeight (⟨Real.sin, Real.cos⟩ : Libm ℝ) 0 0 = 0 := by
  simp [Terrain.generateHeight]

theorem generateHeight_real_one_zero_pos :
    0 < Terrain.generateHeight (⟨Real.sin, Real.cos⟩ : Libm ℝ) 1 0 := by
  have hpi := Real.pi_gt_three
  have h1 : 0 < Real.sin (1 / 10) := Real.sin_pos_of_pos_of_lt_pi (by norm_num) (by linarith)
  have h2 : 0 < Real.sin (1 / 10 * (1 / 2)) :=
    Real.sin_pos_of_pos_of_lt_pi (by norm_num) (by linarith)
  have h3 : 0 < Real.sin (1 / 10 * (1 / 4)) :=
    Real.sin_pos_of_pos_of_lt_pi (by norm_num) (by linarith)
  simp only [Terrain.generateHeight, Int.cast_one, Int.cast_zero, one_mul, zero_mul,
    Real.cos_zero, mul_one, zero_add]
  positivity

theorem floatToInt_neg_half : floatToInt (-1 / 2 : ℝ) = 0 := by
  unfold floatToInt
  rw [if_neg (by norm_num), Int.ceil_eq_iff]
  norm_num

end Lemmas

/-! ## Claims -/

/-- C1 (the code departs from the claim): the point `(-1/2, 0)` lies outside
`[0, width-1) × [0, depth-1)` of the constructed 2 × 2 terrain, yet `getHeight` does not return
`0.0` there: `(int)(-0.5f)` is `0`, the guard passes and the result is the extrapolated value
`-generateHeight(1, 0) / 2`, which is negative. -/
theorem getHeight_negative_fraction_not_zero :
    ∃ t : Terrain ℝ, Terrain.construct ⟨Real.sin, Real.cos⟩ 2 2 = some t ∧
      t.getHeight (-1 / 2) 0
        = some (-(Terrain.generateHeight (⟨Real.sin, Real.cos⟩ : Libm ℝ) 1 0) / 2) ∧
      -(Terrain.generateHeight (⟨Real.sin, Real.cos⟩ : Libm ℝ) 1 0) / 2 < 0 ∧
      ¬ ((0 : ℝ) ≤ -1 / 2) := by
  obtain ⟨t, ht, -⟩ := Terrain.construct_spec (⟨Real.sin, Real.cos⟩ : Libm ℝ) 2 2 (by norm_num)
  obtain ⟨hw, hh, hwf, -, s00⟩ := Terrain.construct_sample _ 2 2 t ht 0 0
    (by norm_num) (by norm_num) (by norm_num) (by norm_num)
  obtain ⟨-, -, -, -, s10⟩ := Terrain.construct_sample _ 2 2 t ht 1 0
    (by norm_num) (by norm_num) (by norm_num) (by norm_num)
  have hz : floatToInt (0 : ℝ) = 0 := by simpa using @floatToInt_intCast ℝ _ _ 0
  have hg : ¬ t.outOfBounds (floatToInt (-1 / 2 : ℝ)) (floatToInt (0 : ℝ)) := by
    rw [floatToInt_neg_half, hz]
    unfold Terrain.outOfBounds
    omega
  refine ⟨t, ht, ?_, ?_, by norm_num⟩
  · rw [Terrain.getHeight_inBounds t hwf _ _ hg, floatToInt_neg_half, hz, hw]
    norm_num at s00 s10 ⊢
    rw [s00, s10, generateHeight_real_zero_zero]
    ring
  · have := generateHeight_real_one_zero_pos
    linarith

/-- C2 (counterexample): on the constructed 2 × 2 terrain the in-bounds grid point `(1, 0)`
has the non-zero stored sample `generateHeight(1, 0)`, but `getHeight(1, 0)` is `0.0`. -/
theorem getHeight_last_column_differs_from_sample :
    ∃ t : Terrain ℝ, Terrain.construct ⟨Real.sin, Real.cos⟩ 2 2 = some t ∧
      (0 : Int) ≤ 1 ∧ (1 : Int) < t.width ∧ (0 : Int) ≤ 0 ∧ (0 : Int) < t.height ∧
      vecGet t.heights (0 * t.width + 1)
        = some (Terrain.generateHeight (⟨Real.sin, Real.cos⟩ : Libm ℝ) 1 0) ∧
      t.getHeight ((1 : Int) : ℝ) ((0 : Int) : ℝ) = some 0 ∧
      Terrain.generateHeight (⟨Real.sin, Real.cos⟩ : Libm ℝ) 1 0 ≠ 0 := by
  obtain ⟨t, ht, -⟩ := Terrain.construct_spec (⟨Real.sin, Real.cos⟩ : Libm ℝ) 2 2 (by norm_num)
  obtain ⟨hw, hh, -, s10, -⟩ := Terrain.construct_sample _ 2 2 t ht 1 0
    (by norm_num) (by norm_num) (by norm_num) (by norm_num)
  refine ⟨t, ht, by norm_num, by rw [hw]; norm_num, by norm_num, by rw [hh]; norm_num,
    ?_, ?_, ne_of_gt generateHeight_real_one_zero_pos⟩
  · rw [hw]; exact s10
  · apply Terrain.getHeight_outOfBounds
    rw [floatToInt_intCast, floatToInt_intCast]
    unfold Terrain.outOfBounds
    omega

/-- C2 (amended): on a constructed terrain every in-bounds integer grid point `(x, z)` stores
`generateHeight x z` at `heights[z * width + x]`; `getHeight x z` returns exactly that sample
when moreover `x < width - 1` and `z < depth - 1`, and returns `0` on the last column and the
last row. -/
theorem getHeight_grid_point {α : Type} [LinearOrderedField α] [FloorRing α]
    (m : Libm α) (w h x z : Int) (hx0 : 0 ≤ x) (hx1 : x < w) (hz0 : 0 ≤ z) (hz1 : z < h) :
    ∃ t : Terrain α, Terrain.construct m w h = some t ∧
      vecGet t.heights (z * w + x) = some (Terrain.generateHeight m x z) ∧
      (x < w - 1 → z < h - 1 →
        t.getHeight (x : α) (z : α) = some (Terrain.generateHeight m x z)) ∧
      (x = w - 1 ∨ z = h - 1 → t.getHeight (x : α) (z : α) = some 0) := by
  obtain ⟨t, ht, -⟩ := Terrain.construct_spec m w h (mul_nonneg (by omega) (by omega))
  obtain ⟨hw, hh, hwf, hs, hd⟩ := Terrain.construct_sample m w h t ht x z hx0 hx1 hz0 hz1
  refine ⟨t, ht, hs, ?_, ?_⟩
  · intro hx2 hz2
    rw [Terrain.getHeight_intCast t hwf x z hx0 (by omega) hz0 (by omega), hw, hd]
  · intro hlast
    apply Terrain.getHeight_outOfBounds
    rw [floatToInt_intCast, floatToInt_intCast]
    unfold Terrain.outOfBounds
    omega

/-- Witness for `getHeight_grid_point`: the grid point `(1, 1)` of a 3 × 3 terrain. -/
theorem getHeight_grid_point_witness :
    ∃ t : Terrain ℝ, Terrain.construct ⟨Real.sin, Real.cos⟩ 3 3 = some t ∧
      vecGet t.heights (1 * 3 + 1)
        = some (Terrain.generateHeight (⟨Real.sin, Real.cos⟩ : Libm ℝ) 1 1) ∧
      ((1 : Int) < 3 - 1 → (1 : Int) < 3 - 1 →
        t.getHeight ((1 : Int) : ℝ) ((1 : Int) : ℝ)
          = some (Terrain.generateHeight (⟨Real.sin, Real.cos⟩ : Libm ℝ) 1 1)) ∧
      ((1 : Int) = 3 - 1 ∨ (1 : Int) = 3 - 1 →
        t.getHeight ((1 : Int) : ℝ) ((1 : Int) : ℝ) = some 0) :=
  getHeight_grid_point ⟨Real.sin, Real.cos⟩ 3 3 1 1 (by decide) (by decide) (by decide)
    (by decide)

/-- C3: on a well-formed terrain, when the cell `(⌊worldX⌋, ⌊worldZ⌋)` passes the guard,
`getHeight` reads the four surrounding samples and returns
`(h00*(1-fx) + h10*fx)*(1-fz) + (h01*(1-fx) + h11*fx)*fz` with `fx = worldX - ⌊worldX⌋`,
`fz = worldZ - ⌊worldZ⌋`. -/
theorem getHeight_bilinear {α : Type} [LinearOrderedField α] [FloorRing α]
    (t : Terrain α) (hwf : t.WellFormed) (worldX worldZ : α)
    (hx0 : 0 ≤ ⌊worldX⌋) (hx1 : ⌊worldX⌋ < t.width - 1)
    (hz0 : 0 ≤ ⌊worldZ⌋) (hz1 : ⌊worldZ⌋ < t.height - 1) :
    ∃ h00 h10 h01 h11 : α,
      vecGet t.heights (⌊worldZ⌋ * t.width + ⌊worldX⌋) = some h00 ∧
      vecGet t.heights (⌊worldZ⌋ * t.width + (⌊worldX⌋ + 1)) = some h10 ∧
      vecGet t.heights ((⌊worldZ⌋ + 1) * t.width + ⌊worldX⌋) = some h01 ∧
      vecGet t.heights ((⌊worldZ⌋ + 1) * t.width + (⌊worldX⌋ + 1)) = some h11 ∧
      t.getHeight worldX worldZ = some
        ((h00 * (1 - (worldX - (⌊worldX⌋ : α))) + h10 * (worldX - (⌊worldX⌋ : α)))
            * (1 - (worldZ - (⌊worldZ⌋ : α)))
          + (h01 * (1 - (worldX - (⌊worldX⌋ : α))) + h11 * (worldX - (⌊worldX⌋ : α)))
            * (worldZ - (⌊worldZ⌋ : α))) := by
  have ex := floatToInt_of_floor_nonneg worldX hx0
  have ez := floatToInt_of_floor_nonneg worldZ hz0
  have hg : ¬ t.outOfBounds (floatToInt worldX) (floatToInt worldZ) := by
    rw [ex, ez]
    unfold Terrain.outOfBounds
    omega
  have hval := Terrain.getHeight_inBounds t hwf worldX worldZ hg
  rw [ex, ez] at hval
  obtain ⟨hlo, hhi⟩ := Terrain.index_bounds t.width t.height _ _ hx0 hx1 hz0 hz1
  have hwf' : (t.heights.length : Int) = t.width * t.height := hwf
  have hzw : 0 ≤ ⌊worldZ⌋ * t.width := mul_nonneg hz0 (by omega)
  refine ⟨_, _, _, _,
    vecGet_of_lt t.heights _ (by omega) (by rw [hwf']; nlinarith),
    vecGet_of_lt t.heights _ (by omega) (by rw [hwf']; nlinarith),
    vecGet_of_lt t.heights _ (by nlinarith) (by rw [hwf']; omega),
    vecGet_of_lt t.heights _ (by nlinarith) (by rw [hwf']; omega), ?_⟩
  rw [hval]
  simp only [add_assoc]

/-- Witness for `getHeight_bilinear`: the point `(1/2, 3/2)` of `sampleTerrain`. -/
theorem getHeight_bilinear_witness :
    sampleTerrain.WellFormed ∧ 0 ≤ ⌊(1 / 2 : ℚ)⌋ ∧ ⌊(1 / 2 : ℚ)⌋ < sampleTerrain.width - 1 ∧
    0 ≤ ⌊(3 / 2 : ℚ)⌋ ∧ ⌊(3 / 2 : ℚ)⌋ < sampleTerrain.height - 1 ∧
    ∃ h00 h10 h01 h11 : ℚ,
      vecGet sampleTerrain.heights (⌊(3 / 2 : ℚ)⌋ * sampleTerrain.width + ⌊(1 / 2 : ℚ)⌋)
        = some h00 ∧
      vecGet sampleTerrain.heights (⌊(3 / 2 : ℚ)⌋ * sampleTerrain.width + (⌊(1 / 2 : ℚ)⌋ + 1))
        = some h10 ∧
      vecGet sampleTerrain.heights ((⌊(3 / 2 : ℚ)⌋ + 1) * sampleTerrain.width + ⌊(1 / 2 : ℚ)⌋)
        = some h01 ∧
      vecGet sampleTerrain.heights
        ((⌊(3 / 2 : ℚ)⌋ + 1) * sampleTerrain.width + (⌊(1 / 2 : ℚ)⌋ + 1)) = some h11 ∧
      sampleTerrain.getHeight (1 / 2) (3 / 2) = some
        ((h00 * (1 - (1 / 2 - (⌊(1 / 2 : ℚ)⌋ : ℚ))) + h10 * (1 / 2 - (⌊(1 / 2 : ℚ)⌋ : ℚ)))
            * (1 - (3 / 2 - (⌊(3 / 2 : ℚ)⌋ : ℚ)))
          + (h01 * (1 - (1 / 2 - (⌊(1 / 2 : ℚ)⌋ : ℚ))) + h11 * (1 / 2 - (⌊(1 / 2 : ℚ)⌋ : ℚ)))
            * (3 / 2 - (⌊(3 / 2 : ℚ)⌋ : ℚ))) :=
  have hwf : sampleTerrain.WellFormed := by decide
  have hx0 : 0 ≤ ⌊(1 / 2 : ℚ)⌋ := Int.le_floor.mpr (by norm_num)
  have hx1 : ⌊(1 / 2 : ℚ)⌋ < sampleTerrain.width - 1 :=
    Int.floor_lt.mpr (by norm_num [sampleTerrain])
  have hz0 : 0 ≤ ⌊(3 / 2 : ℚ)⌋ := Int.le_floor.mpr (by norm_num)
  have hz1 : ⌊(3 / 2 : ℚ)⌋ < sampleTerrain.height - 1 :=
    Int.floor_lt.mpr (by norm_num [sampleTerrain])
  ⟨hwf, hx0, hx1, hz0, hz1, getHeight_bilinear sampleTerrain hwf (1 / 2) (3 / 2) hx0 hx1 hz0 hz1⟩

/-- C4: on a terrain whose `heights` has exactly `width * height` entries, `getHeight`
performs only in-range reads for every query (it returns a value), and whenever the guard
does not return early each of the four indices it reads is `≥ 0` and `< width * height`. -/
theorem getHeight_reads_in_range {α : Type} [LinearOrderedField α] [FloorRing α]
    (t : Terrain α) (hlen : (t.heights.length : Int) = t.width * t.height) (x z : α) :
    (t.getHeight x z).isSome ∧
    (¬ t.outOfBounds (floatToInt x) (floatToInt z) →
      (0 ≤ floatToInt z * t.width + floatToInt x ∧
        floatToInt z * t.width + floatToInt x < t.width * t.height) ∧
      (0 ≤ floatToInt z * t.width + floatToInt x + 1 ∧
        floatToInt z * t.width + floatToInt x + 1 < t.width * t.height) ∧
      (0 ≤ (floatToInt z + 1) * t.width + floatToInt x ∧
        (floatToInt z + 1) * t.width + floatToInt x < t.width * t.height) ∧
      (0 ≤ (floatToInt z + 1) * t.width + floatToInt x + 1 ∧
        (floatToInt z + 1) * t.width + floatToInt x + 1 < t.width * t.height)) := by
  constructor
  · by_cases hg : t.outOfBounds (floatToInt x) (floatToInt z)
    · rw [Terrain.getHeight_outOfBounds t x z hg]; rfl
    · rw [Terrain.getHeight_inBounds t hlen x z hg]; rfl
  · intro hg
    unfold Terrain.outOfBounds at hg
    push_neg at hg
    obtain ⟨hx0, hx1, hz0, hz1⟩ := hg
    obtain ⟨hlo, hhi⟩ := Terrain.index_bounds t.width t.height _ _ hx0 hx1 hz0 hz1
    have hzw : 0 ≤ floatToInt z * t.width := mul_nonneg hz0 (by omega)
    refine ⟨⟨by omega, by nlinarith⟩, ⟨by omega, by nlinarith⟩, ⟨by nlinarith, by omega⟩,
      ⟨by nlinarith, by omega⟩⟩

/-- Witness for `getHeight_reads_in_range`: the query `(1/2, 3/2)` on `sampleTerrain`. -/
theorem getHeight_reads_in_range_witness :
    ((sampleTerrain.heights.length : Int) = sampleTerrain.width * sampleTerrain.height) ∧
    (sampleTerrain.getHeight (1 / 2) (3 / 2)).isSome ∧
    (¬ sampleTerrain.outOfBounds (floatToInt (1 / 2 : ℚ)) (floatToInt (3 / 2 : ℚ)) →
      (0 ≤ floatToInt (3 / 2 : ℚ) * sampleTerrain.width + floatToInt (1 / 2 : ℚ) ∧
        floatToInt (3 / 2 : ℚ) * sampleTerrain.width + floatToInt (1 / 2 : ℚ)
          < sampleTerrain.width * sampleTerrain.height) ∧
      (0 ≤ floatToInt (3 / 2 : ℚ) * sampleTerrain.width + floatToInt (1 / 2 : ℚ) + 1 ∧
        floatToInt (3 / 2 : ℚ) * sampleTerrain.width + floatToInt (1 / 2 : ℚ) + 1
          < sampleTerrain.width * sampleTerrain.height) ∧
      (0 ≤ (floatToInt (3 / 2 : ℚ) + 1) * sampleTerrain.width + floatToInt (1 / 2 : ℚ) ∧
        (floatToInt (3 / 2 : ℚ) + 1) * sampleTerrain.width + floatToInt (1 / 2 : ℚ)
          < sampleTerrain.width * sampleTerrain.height) ∧
      (0 ≤ (floatToInt (3 / 2 : ℚ) + 1) * sampleTerrain.width + floatToInt (1 / 2 : ℚ) + 1 ∧
        (floatToInt (3 / 2 : ℚ) + 1) * sampleTerrain.width + floatToInt (1 / 2 : ℚ) + 1
          < sampleTerrain.width * sampleTerrain.height)) :=
  ⟨by decide, getHeight_reads_in_range sampleTerrain (by decide) (1 / 2) (3 / 2)⟩

/-- C5: for a terrain with `width, depth ≥ 2` (and one height per grid point),
`generateMesh` succeeds and every index it stores is below the vertex count, which is
`width * depth` (the number of 8-float records in the vertex buffer). -/
theorem generateMesh_indices_lt_vertex_count {α : Type} [LinearOrderedField α] [FloorRing α]
    (t : Terrain α) (hwf : t.WellFormed) (hw : 2 ≤ t.width) (hh : 2 ≤ t.height) :
    ∃ t' : Terrain α, t.generateMesh = some t' ∧
      ((t'.vertices.length / 8 : Nat) : Int) = t.width * t.height ∧
      ∀ i ∈ t'.indices, i < t'.vertices.length / 8 := by
  refine ⟨_, Terrain.generateMesh_eq t hwf, ?_, ?_⟩
  · have hl := Terrain.length_meshVertices t (by omega) (by omega)
    show ((t.meshVertices.length / 8 : Nat) : Int) = t.width * t.height
    omega
  · intro i hi
    have hl := Terrain.length_meshVertices t (by omega) (by omega)
    have hlt := Terrain.mem_meshIndices_lt t.width t.height i hi
    show i < t.meshVertices.length / 8
    omega

/-- Witness for `generateMesh_indices_lt_vertex_count` on `sampleTerrain`. -/
theorem generateMesh_indices_lt_vertex_count_witness :
    sampleTerrain.WellFormed ∧ 2 ≤ sampleTerrain.width ∧ 2 ≤ sampleTerrain.height ∧
    ∃ t' : Terrain ℚ, sampleTerrain.generateMesh = some t' ∧
      ((t'.vertices.length / 8 : Nat) : Int) = sampleTerrain.width * sampleTerrain.height ∧
      ∀ i ∈ t'.indices, i < t'.vertices.length / 8 :=
  ⟨by decide, by decide, by decide,
    generateMesh_indices_lt_vertex_count sampleTerrain (by decide) (by decide) (by decide)⟩

/-- C6: for a terrain with `width, depth ≥ 2` (and one height per grid point), whatever the
two buffers held before, `generateMesh` leaves `8 * width * depth` floats in the vertex
buffer (`width * depth` records) and `6 * (width-1) * (depth-1)` indices, that is
`2 * (width-1) * (depth-1)` triangles; a second call succeeds and leaves the same counts. -/
theorem generateMesh_counts {α : Type} [LinearOrderedField α] [FloorRing α]
    (t : Terrain α) (hwf : t.WellFormed) (hw : 2 ≤ t.width) (hh : 2 ≤ t.height) :
    ∃ t' : Terrain α, t.generateMesh = some t' ∧
      (t'.vertices.length : Int) = 8 * (t.width * t.height) ∧
      (t'.indices.length : Int) = 6 * ((t.width - 1) * (t.height - 1)) ∧
      (t'.indices.length : Int) = 3 * (2 * ((t.width - 1) * (t.height - 1))) ∧
      ∃ t2 : Terrain α, t'.generateMesh = some t2 ∧
        t2.vertices.length = t'.vertices.length ∧ t2.indices.length = t'.indices.length := by
  have hv := Terrain.length_meshVertices t (by omega) (by omega)
  have hi := Terrain.length_meshIndices t.width t.height (by omega) (by omega)
  refine ⟨_, Terrain.generateMesh_eq t hwf, hv, hi, by rw [hi]; ring, ?_⟩
  exact ⟨_, Terrain.generateMesh_eq _ hwf, rfl, rfl⟩

/-- Witness for `generateMesh_counts` on `sampleTerrain`. -/
theorem generateMesh_counts_witness :
    sampleTerrain.WellFormed ∧ 2 ≤ sampleTerrain.width ∧ 2 ≤ sampleTerrain.height ∧
    ∃ t' : Terrain ℚ, sampleTerrain.generateMesh = some t' ∧
      (t'.vertices.length : Int) = 8 * (sampleTerrain.width * sampleTerrain.height) ∧
      (t'.indices.length : Int) = 6 * ((sampleTerrain.width - 1) * (sampleTerrain.height - 1)) ∧
      (t'.indices.length : Int)
        = 3 * (2 * ((sampleTerrain.width - 1) * (sampleTerrain.height - 1))) ∧
      ∃ t2 : Terrain ℚ, t'.generateMesh = some t2 ∧
        t2.vertices.length = t'.vertices.length ∧ t2.indices.length = t'.indices.length :=
  ⟨by decide, by decide, by decide,
    generateMesh_counts sampleTerrain (by decide) (by decide) (by decide)⟩

/-- C7: for a terrain with `width, depth ≥ 2` and a cell `(x, z)` with `0 ≤ x < width-1`,
`0 ≤ z < depth-1`, the six indices starting at position `6 * (z * (width-1) + x)` of the index
buffer built by `generateMesh` are `(topLeft, bottomLeft, topRight, topRight, bottomLeft,
bottomRight)` with `topLeft = z*width + x`, `topRight = topLeft + 1`,
`bottomLeft = (z+1)*width + x`, `bottomRight = bottomLeft + 1`. -/
theorem generateMesh_quad_indices {α : Type} [LinearOrderedField α] [FloorRing α]
    (t : Terrain α) (hwf : t.WellFormed) (hw : 2 ≤ t.width) (hh : 2 ≤ t.height)
    (x z : Int) (hx0 : 0 ≤ x) (hx1 : x < t.width - 1) (hz0 : 0 ≤ z) (hz1 : z < t.height - 1) :
    ∃ (t' : Terrain α) (topLeft bottomLeft : Nat), t.generateMesh = some t' ∧
      (topLeft : Int) = z * t.width + x ∧ (bottomLeft : Int) = (z + 1) * t.width + x ∧
      (t'.indices.drop (6 * (z * (t.width - 1) + x)).toNat).take 6
        = [topLeft, bottomLeft, topLeft + 1, topLeft + 1, bottomLeft, bottomLeft + 1] := by
  have hzw : 0 ≤ z * t.width := mul_nonneg hz0 (by omega)
  have hzw1 : 0 ≤ z * (t.width - 1) := mul_nonneg hz0 (by omega)
  refine ⟨_, (z * t.width + x).toNat, ((z + 1) * t.width + x).toNat,
    Terrain.generateMesh_eq t hwf, Int.toNat_of_nonneg (by omega),
    Int.toNat_of_nonneg (by nlinarith), ?_⟩
  have hpos : (6 * (z * (t.width - 1) + x)).toNat
      = 6 * (z.toNat * (t.width - 1).toNat + x.toNat) := by
    have : ((6 * (z.toNat * (t.width - 1).toNat + x.toNat) : Nat) : Int)
        = 6 * (z * (t.width - 1) + x) := by
      push_cast
      rw [Int.toNat_of_nonneg hz0, Int.toNat_of_nonneg hx0, Int.toNat_of_nonneg (by omega)]
    omega
  show ((Terrain.meshIndices t.width t.height).drop _).take 6 = _
  rw [hpos]
  unfold Terrain.meshIndices
  rw [take_drop_grid 6 (t.width - 1).toNat (t.height - 1).toNat
    (fun z x => Terrain.quadIndices t.width x z)
    (fun z x => Terrain.length_quadIndices t.width x z) z.toNat x.toNat (by omega) (by omega)]
  simp only [Terrain.quadIndices, Int.toNat_of_nonneg hz0, Int.toNat_of_nonneg hx0]

/-- Witness for `generateMesh_quad_indices`: the cell `(1, 1)` of `sampleTerrain`. -/
theorem generateMesh_quad_indices_witness :
    ∃ (t' : Terrain ℚ) (topLeft bottomLeft : Nat), sampleTerrain.generateMesh = some t' ∧
      (topLeft : Int) = 1 * sampleTerrain.width + 1 ∧
      (bottomLeft : Int) = (1 + 1) * sampleTerrain.width + 1 ∧
      (t'.indices.drop (6 * (1 * (sampleTerrain.width - 1) + 1)).toNat).take 6
        = [topLeft, bottomLeft, topLeft + 1, topLeft + 1, bottomLeft, bottomLeft + 1] :=
  generateMesh_quad_indices sampleTerrain (by decide) (by decide) (by decide) 1 1
    (by decide) (by decide) (by decide) (by decide)

/-- C8: on a constructed terrain, for every grid cell `(x, z)` with `0 ≤ x < width`,
`0 ≤ z < depth`, the vertex record number `z*width + x` (the eight floats from position
`8 * (z*width + x)` of the vertex buffer) is `(x, h, z, 0, 1, 0, 0.1*x, 0.1*z)`, where `h` is
the stored sample `heights[z*width + x]` and equals
`5 sin(0.1x) cos(0.1z) + 2.5 sin(0.05x) cos(0.05z) + 1.25 sin(0.025x) cos(0.025z)`. -/
theorem construct_vertex_record {α : Type} [LinearOrderedField α] [FloorRing α]
    (m : Libm α) (w h x z : Int) (hx0 : 0 ≤ x) (hx1 : x < w) (hz0 : 0 ≤ z) (hz1 : z < h) :
    ∃ (t : Terrain α) (y : α), Terrain.construct m w h = some t ∧
      vecGet t.heights (z * w + x) = some y ∧
      y = 5 * (m.sin (1 / 10 * (x : α)) * m.cos (1 / 10 * (z : α)))
        + 5 / 2 * (m.sin (1 / 20 * (x : α)) * m.cos (1 / 20 * (z : α)))
        + 5 / 4 * (m.sin (1 / 40 * (x : α)) * m.cos (1 / 40 * (z : α))) ∧
      (t.vertices.drop (8 * (z * w + x)).toNat).take 8
        = [(x : α), y, (z : α), 0, 1, 0, 1 / 10 * (x : α), 1 / 10 * (z : α)] := by
  obtain ⟨t, ht, hw, hh, hwf, hall, hv, -⟩ :=
    Terrain.construct_spec m w h (mul_nonneg (by omega) (by omega))
  obtain ⟨-, -, -, hs, -⟩ := Terrain.construct_sample m w h t ht x z hx0 hx1 hz0 hz1
  refine ⟨t, Terrain.generateHeight m x z, ht, hs, ?_, ?_⟩
  · have e1 : (x : α) * (1 / 10) = 1 / 10 * (x : α) := by ring
    have e2 : (z : α) * (1 / 10) = 1 / 10 * (z : α) := by ring
    have e3 : (x : α) * (1 / 10) * (1 / 2) = 1 / 20 * (x : α) := by ring
    have e4 : (z : α) * (1 / 10) * (1 / 2) = 1 / 20 * (z : α) := by ring
    have e5 : (x : α) * (1 / 10) * (1 / 4) = 1 / 40 * (x : α) := by ring
    have e6 : (z : α) * (1 / 10) * (1 / 4) = 1 / 40 * (z : α) := by ring
    simp only [Terrain.generateHeight]
    rw [e3, e4, e5, e6, e1, e2]
    ring
  · have hzw : 0 ≤ z * w := mul_nonneg hz0 (by omega)
    have hpos : (8 * (z * w + x)).toNat = 8 * (z.toNat * t.width.toNat + x.toNat) := by
      have : ((8 * (z.toNat * t.width.toNat + x.toNat) : Nat) : Int) = 8 * (z * w + x) := by
        push_cast
        rw [Int.toNat_of_nonneg hz0, Int.toNat_of_nonneg hx0, hw,
          Int.toNat_of_nonneg (by omega)]
      omega
    have hsample := hall x.toNat z.toNat (by omega) (by omega)
    rw [Int.toNat_of_nonneg hx0, Int.toNat_of_nonneg hz0] at hsample
    have hxc : ((x.toNat : Nat) : α) = (x : α) := by
      rw [← Int.cast_natCast, Int.toNat_of_nonneg hx0]
    have hzc : ((z.toNat : Nat) : α) = (z : α) := by
      rw [← Int.cast_natCast, Int.toNat_of_nonneg hz0]
    rw [hv, hpos]
    unfold Terrain.meshVertices
    rw [take_drop_grid 8 t.width.toNat t.height.toNat
      (fun z x => Terrain.vertexRecord x z (t.heights.getD (z * t.width.toNat + x) 0))
      (fun z x => Terrain.length_vertexRecord x z _) z.toNat x.toNat (by omega) (by omega)]
    have e1 : (x : α) * (1 / 10) = 1 / 10 * (x : α) := by ring
    have e2 : (z : α) * (1 / 10) = 1 / 10 * (z : α) := by ring
    simp only [Terrain.vertexRecord, hw, List.getD_eq_getElem?_getD, hsample, hxc, hzc,
      Option.getD_some, e1, e2]

/-- Witness for `construct_vertex_record`: the cell `(1, 2)` of a 3 × 4 terrain built with the
real sine and cosine. -/
theorem construct_vertex_record_witness :
    ∃ (t : Terrain ℝ) (y : ℝ), Terrain.construct ⟨Real.sin, Real.cos⟩ 3 4 = some t ∧
      vecGet t.heights (2 * 3 + 1) = some y ∧
      y = 5 * (Real.sin (1 / 10 * ((1 : Int) : ℝ)) * Real.cos (1 / 10 * ((2 : Int) : ℝ)))
        + 5 / 2 * (Real.sin (1 / 20 * ((1 : Int) : ℝ)) * Real.cos (1 / 20 * ((2 : Int) : ℝ)))
        + 5 / 4 * (Real.sin (1 / 40 * ((1 : Int) : ℝ)) * Real.cos (1 / 40 * ((2 : Int) : ℝ))) ∧
      (t.vertices.drop (8 * (2 * 3 + 1 : Int)).toNat).take 8
        = [((1 : Int) : ℝ), y, ((2 : Int) : ℝ), 0, 1, 0, 1 / 10 * ((1 : Int) : ℝ),
            1 / 10 * ((2 : Int) : ℝ)] :=
  construct_vertex_record ⟨Real.sin, Real.cos⟩ 3 4 1 2 (by decide) (by decide) (by decide)
    (by decide)

/-- C9: on a well-formed terrain `Vehicle::update` returns, and with `g` the terrain height
at the post-step `(position.x, position.z)`, the post-step `position.y` is at least
`g + height/2`; it equals `g + height/2` exactly when the step took the snap branch and is
strictly greater exactly when it took the gravity branch (the test
`position.y > terrainHeight + height * 0.5f` after `position += velocity * deltaTime`). -/
theorem update_not_below_terrain {α : Type} [LinearOrderedField α] [FloorRing α]
    (v : Vehicle α) (deltaTime : α) (t : Terrain α) (hwf : t.WellFormed) :
    ∃ (v' : Vehicle α) (g : α), v.update deltaTime t = some v' ∧
      t.getHeight (v.integrate deltaTime).x (v.integrate deltaTime).z = some g ∧
      t.getHeight v'.position.x v'.position.z = some g ∧
      v'.height = v.height ∧
      v'.position.y ≥ g + v'.height * (1 / 2) ∧
      (v'.position.y = g + v'.height * (1 / 2) ↔
        ¬ (v.integrate deltaTime).y > g + v.height * (1 / 2)) ∧
      (v'.position.y > g + v'.height * (1 / 2) ↔
        (v.integrate deltaTime).y > g + v.height * (1 / 2)) := by
  obtain ⟨g, hg⟩ := Terrain.getHeight_total t hwf (v.integrate deltaTime).x
    (v.integrate deltaTime).z
  by_cases hc : (v.integrate deltaTime).y > g + v.height * (1 / 2)
  · refine ⟨_, g, Vehicle.update_airborne v deltaTime t g hg hc, hg, ?_, ?_, ?_, ?_, ?_⟩
    · exact hg
    · rfl
    · exact le_of_lt hc
    · exact ⟨fun h => absurd hc (by rw [gt_iff_lt, ← h]; exact lt_irrefl _), fun h => absurd hc h⟩
    · exact ⟨fun _ => hc, fun _ => hc⟩
  · refine ⟨_, g, Vehicle.update_grounded v deltaTime t g hg hc, hg, ?_, ?_, ?_, ?_, ?_⟩
    · exact hg
    · rfl
    · exact le_refl _
    · exact ⟨fun _ => hc, fun _ => rfl⟩
    · exact ⟨fun h => absurd h (lt_irrefl _), fun h => absurd h hc⟩

/-- Witness for `update_not_below_terrain`: `sampleVehicle` on `sampleTerrain`, one step of
a tenth of a second. -/
theorem update_not_below_terrain_witness :
    sampleTerrain.WellFormed ∧
    ∃ (v' : Vehicle ℚ) (g : ℚ), sampleVehicle.update (1 / 10) sampleTerrain = some v' ∧
      sampleTerrain.getHeight (sampleVehicle.integrate (1 / 10)).x
        (sampleVehicle.integrate (1 / 10)).z = some g ∧
      sampleTerrain.getHeight v'.position.x v'.position.z = some g ∧
      v'.height = sampleVehicle.height ∧
      v'.position.y ≥ g + v'.height * (1 / 2) ∧
      (v'.position.y = g + v'.height * (1 / 2) ↔
        ¬ (sampleVehicle.integrate (1 / 10)).y > g + sampleVehicle.height * (1 / 2)) ∧
      (v'.position.y > g + v'.height * (1 / 2) ↔
        (sampleVehicle.integrate (1 / 10)).y > g + sampleVehicle.height * (1 / 2)) :=
  ⟨by decide, update_not_below_terrain sampleVehicle (1 / 10) sampleTerrain (by decide)⟩

/-- C10 (counterexample): on the constructed 2 × 2 terrain, a vehicle of height 1 at
`(0, 1/2, 0)` with velocity `(0, 10, 0)` has, before the step, `position.y ≤ getHeight(0, 0) +
height/2` (both sides are `1/2`); after `update` with `deltaTime = 1` it is at height `21/2`,
which is not `getHeight + height/2 = 1/2`, and `velocity.y` is `1/5`, not `0`. -/
theorem update_grounded_before_step_not_snapped :
    ∃ (t : Terrain ℝ) (v' : Vehicle ℝ),
      Terrain.construct ⟨Real.sin, Real.cos⟩ 2 2 = some t ∧
      t.getHeight 0 0 = some 0 ∧ (1 / 2 : ℝ) ≤ 0 + 1 * (1 / 2) ∧
      Vehicle.update
        ({ position := { x := 0, y := 1 / 2, z := 0 }, velocity := { x := 0, y := 10, z := 0 },
           rotation := { x := 0, y := 0, z := 0 }, width := 2, height := 1, length := 4 } :
          Vehicle ℝ)
        1 t = some v' ∧
      t.getHeight v'.position.x v'.position.z = some 0 ∧
      v'.position.y = 21 / 2 ∧ v'.position.y ≠ 0 + v'.height * (1 / 2) ∧
      v'.velocity.y = 1 / 5 ∧ v'.velocity.y ≠ 0 := by
  obtain ⟨t, ht, -⟩ := Terrain.construct_spec (⟨Real.sin, Real.cos⟩ : Libm ℝ) 2 2 (by norm_num)
  obtain ⟨hw, hh, hwf, -, s00⟩ := Terrain.construct_sample _ 2 2 t ht 0 0
    (by norm_num) (by norm_num) (by norm_num) (by norm_num)
  have hg : t.getHeight (0 : ℝ) (0 : ℝ) = some 0 := by
    have := Terrain.getHeight_intCast t hwf 0 0 (le_refl _) (by omega) (le_refl _) (by omega)
    rw [hw, s00, generateHeight_real_zero_zero] at this
    simpa using this
  refine ⟨t, _, ht, hg, by norm_num,
    Vehicle.update_airborne _ 1 t 0 (by simpa [Vehicle.integrate] using hg)
      (by norm_num [Vehicle.integrate]), ?_, ?_, ?_, ?_, ?_⟩
  · simpa [Vehicle.integrate] using hg
  · norm_num [Vehicle.integrate]
  · norm_num [Vehicle.integrate]
  · norm_num
  · norm_num

/-- C10 (amended): if after `position += velocity * deltaTime` the vehicle has
`position.y ≤ terrainHeight + height/2`, where `terrainHeight` is `getHeight` at the new
`(position.x, position.z)`, then `update` returns with `position.y == getHeight(position.x,
position.z) + height/2` at the post-step position and `velocity.y == 0`. -/
theorem update_grounded_snaps {α : Type} [LinearOrderedField α] [FloorRing α]
    (v : Vehicle α) (deltaTime : α) (t : Terrain α) (g : α)
    (hg : t.getHeight (v.integrate deltaTime).x (v.integrate deltaTime).z = some g)
    (hle : (v.integrate deltaTime).y ≤ g + v.height * (1 / 2)) :
    ∃ v' : Vehicle α, v.update deltaTime t = some v' ∧
      t.getHeight v'.position.x v'.position.z = some g ∧
      v'.position.y = g + v'.height * (1 / 2) ∧ v'.velocity.y = 0 := by
  exact ⟨_, Vehicle.update_grounded v deltaTime t g hg (not_lt.mpr hle), hg, rfl, rfl⟩

/-- Witness for `update_grounded_snaps`: `sampleVehicle` resting on `sampleTerrain`. -/
theorem update_grounded_snaps_witness :
    sampleTerrain.getHeight (sampleVehicle.integrate (1 / 10)).x
      (sampleVehicle.integrate (1 / 10)).z = some 0 ∧
    (sampleVehicle.integrate (1 / 10)).y ≤ 0 + sampleVehicle.height * (1 / 2) ∧
    ∃ v' : Vehicle ℚ, sampleVehicle.update (1 / 10) sampleTerrain = some v' ∧
      sampleTerrain.getHeight v'.position.x v'.position.z = some 0 ∧
      v'.position.y = 0 + v'.height * (1 / 2) ∧ v'.velocity.y = 0 :=
  have hg : sampleTerrain.getHeight (sampleVehicle.integrate (1 / 10)).x
      (sampleVehicle.integrate (1 / 10)).z = some 0 := by
    simp [Terrain.getHeight, Vehicle.integrate, sampleVehicle, floatToInt, sampleTerrain, vecGet,
      Terrain.outOfBounds]
  have hle : (sampleVehicle.integrate (1 / 10)).y ≤ 0 + sampleVehicle.height * (1 / 2) := by
    simp [Vehicle.integrate, sampleVehicle]
  ⟨hg, hle, update_grounded_snaps sampleVehicle (1 / 10) sampleTerrain 0 hg hle⟩

/-! ## Further lemmas: the first frame, key handling -/

section MoreLemmas

variable {α : Type} [LinearOrderedField α] [FloorRing α]

/-- Each generated height is at most `5 + 2.5 + 1.25` in absolute value when sine and cosine
are bounded by one. -/
theorem Terrain.abs_generateHeight_le (m : Libm α) (hsin : ∀ a, |m.sin a| ≤ 1)
    (hcos : ∀ a, |m.cos a| ≤ 1) (x z : Int) : |Terrain.generateHeight m x z| ≤ 35 / 4 := by
  have key : ∀ a b : α, |m.sin a * m.cos b| ≤ 1 := by
    intro a b
    rw [abs_mul]
    have h := mul_le_mul (hsin a) (hcos b) (abs_nonneg _) zero_le_one
    rwa [one_mul] at h
  have h1 := abs_le.mp (key ((x : α) * (1 / 10)) ((z : α) * (1 / 10)))
  have h2 := abs_le.mp (key ((x : α) * (1 / 10) * (1 / 2)) ((z : α) * (1 / 10) * (1 / 2)))
  have h3 := abs_le.mp (key ((x : α) * (1 / 10) * (1 / 4)) ((z : α) * (1 / 10) * (1 / 4)))
  simp only [Terrain.generateHeight]
  rw [abs_le]
  constructor <;> linarith [h1.1, h1.2, h2.1, h2.2, h3.1, h3.2]

theorem real_sin_cos_bounded :
    (∀ a, |(⟨Real.sin, Real.cos⟩ : Libm ℝ).sin a| ≤ 1) ∧
      (∀ a, |(⟨Real.sin, Real.cos⟩ : Libm ℝ).cos a| ≤ 1) :=
  ⟨fun a => Real.abs_sin_le_one a, fun a => Real.abs_cos_le_one a⟩

/-- The terrain of `main`, `Terrain terrain(100, 100)`, is built, and at the start position
`(50, 50)` of the vehicle its height is the sample `generateHeight(50, 50)`, which is below
`9.5`. -/
theorem main_terrain_height_at_start :
    ∃ t : Terrain ℝ, Terrain.construct ⟨Real.sin, Real.cos⟩ 100 100 = some t ∧
      t.WellFormed ∧
      t.getHeight 50 50
        = some (Terrain.generateHeight (⟨Real.sin, Real.cos⟩ : Libm ℝ) 50 50) ∧
      Terrain.generateHeight (⟨Real.sin, Real.cos⟩ : Libm ℝ) 50 50 < 19 / 2 := by
  obtain ⟨t, ht, -⟩ := Terrain.construct_spec (⟨Real.sin, Real.cos⟩ : Libm ℝ) 100 100
    (by norm_num)
  obtain ⟨hw, hh, hwf, -, s⟩ := Terrain.construct_sample _ 100 100 t ht 50 50
    (by norm_num) (by norm_num) (by norm_num) (by norm_num)
  refine ⟨t, ht, hwf, ?_, ?_⟩
  · have := Terrain.getHeight_intCast t hwf 50 50 (by norm_num) (by omega) (by norm_num)
      (by omega)
    rw [hw, s] at this
    simpa using this
  · have := abs_le.mp (Terrain.abs_generateHeight_le (⟨Real.sin, Real.cos⟩ : Libm ℝ)
      real_sin_cos_bounded.1 real_sin_cos_bounded.2 50 50)
    linarith [this.2]

/-- With neither the forward nor the backward key held, `processInput` leaves the position
alone and multiplies the horizontal velocity by `0.8`. -/
theorem processInput_released (m : Libm α) (glm : Glm α) (keys : Keys) (deltaTime : α)
    (v : Vehicle α) (hup : keys.up = false) (hdown : keys.down = false) :
    (processInput m glm keys deltaTime v).position = v.position ∧
      (processInput m glm keys deltaTime v).height = v.height ∧
      (processInput m glm keys deltaTime v).velocity
        = { x := v.velocity.x * (8 / 10), y := v.velocity.y, z := v.velocity.z * (8 / 10) } := by
  unfold processInput
  simp only [hup, hdown]
  cases keys.left <;> cases keys.right <;> simp

end MoreLemmas

/-- C11: when, after `position += velocity * deltaTime`, the vehicle is above the surface
(`position.y > getHeight(position.x, position.z) + height/2`), `update` returns with
`velocity.y` decreased by exactly `9.8 * deltaTime` and with the integrated position kept
(`position.y` is the old `position.y + velocity.y * deltaTime`, not the surface height). -/
theorem update_airborne_applies_gravity {α : Type} [LinearOrderedField α] [FloorRing α]
    (v : Vehicle α) (deltaTime : α) (t : Terrain α) (g : α)
    (hg : t.getHeight (v.integrate deltaTime).x (v.integrate deltaTime).z = some g)
    (hc : (v.integrate deltaTime).y > g + v.height * (1 / 2)) :
    ∃ v' : Vehicle α, v.update deltaTime t = some v' ∧
      v'.velocity.y = v.velocity.y - 98 / 10 * deltaTime ∧
      v'.position.x = v.position.x + v.velocity.x * deltaTime ∧
      v'.position.y = v.position.y + v.velocity.y * deltaTime ∧
      v'.position.z = v.position.z + v.velocity.z * deltaTime :=
  ⟨_, Vehicle.update_airborne v deltaTime t g hg hc, rfl, rfl, rfl, rfl⟩

/-- Witness for `update_airborne_applies_gravity`, the scenario of the claim: the vehicle of
`main` (start position `(50, 10, 50)`, velocity zero) on the terrain of `main`, whose height
at `(50, 50)` is below `9.5`, with `deltaTime = 0.1`: `velocity.y` goes from `0` to `-0.98`
and the position stays `(50, 10, 50)`. -/
theorem update_airborne_applies_gravity_witness :
    ∃ (t : Terrain ℝ) (v' : Vehicle ℝ),
      Terrain.construct ⟨Real.sin, Real.cos⟩ 100 100 = some t ∧
      (Vehicle.constructDefault : Vehicle ℝ).update (1 / 10) t = some v' ∧
      v'.velocity.y = 0 - 98 / 100 ∧
      v'.position.x = 50 ∧ v'.position.y = 10 ∧ v'.position.z = 50 := by
  obtain ⟨t, ht, -, hg, hlt⟩ := main_terrain_height_at_start
  obtain ⟨v', hv', hvy, hx, hy, hz⟩ := update_airborne_applies_gravity
    (Vehicle.constructDefault : Vehicle ℝ) (1 / 10) t _
    (by simpa [Vehicle.integrate, Vehicle.constructDefault, Vehicle.construct] using hg)
    (by
      simp only [Vehicle.integrate, Vehicle.constructDefault, Vehicle.construct]
      linarith)
  refine ⟨t, v', ht, hv', ?_, ?_, ?_, ?_⟩
  · rw [hvy]; norm_num [Vehicle.constructDefault, Vehicle.construct]
  · rw [hx]; norm_num [Vehicle.constructDefault, Vehicle.construct]
  · rw [hy]; norm_num [Vehicle.constructDefault, Vehicle.construct]
  · rw [hz]; norm_num [Vehicle.constructDefault, Vehicle.construct]

/-- C12 (counterexample): the first frame of `main` with no key held and `deltaTime = 0.1`.
The vehicle starts with velocity `(0, 0, 0)`, so the claim gives velocity `(0, 0, 0)` after
the frame; the vehicle is above the terrain, and the code leaves `velocity.y = -0.98`. -/
theorem frame_released_airborne_velocity_y :
    ∃ (t : Terrain ℝ) (v' : Vehicle ℝ),
      Terrain.construct ⟨Real.sin, Real.cos⟩ 100 100 = some t ∧
      (Vehicle.constructDefault : Vehicle ℝ).velocity = { x := 0, y := 0, z := 0 } ∧
      frame ⟨Real.sin, Real.cos⟩ ⟨fun d => d * (Real.pi / 180)⟩
        { up := false, down := false, left := false, right := false } (1 / 10) t
        Vehicle.constructDefault = some v' ∧
      v'.velocity.x = 0 * (95 / 100) * (8 / 10) ∧ v'.velocity.z = 0 * (95 / 100) * (8 / 10) ∧
      v'.velocity.y = -(98 / 100) ∧ v'.velocity.y ≠ 0 := by
  obtain ⟨t, ht, -, hg, hlt⟩ := main_terrain_height_at_start
  obtain ⟨hp, hh, hv⟩ := processInput_released (⟨Real.sin, Real.cos⟩ : Libm ℝ)
    ⟨fun d => d * (Real.pi / 180)⟩ { up := false, down := false, left := false, right := false }
    (1 / 10) (Vehicle.constructDefault : Vehicle ℝ) rfl rfl
  have hrun := Vehicle.update_airborne
    (processInput (⟨Real.sin, Real.cos⟩ : Libm ℝ) ⟨fun d => d * (Real.pi / 180)⟩
      { up := false, down := false, left := false, right := false } (1 / 10)
      (Vehicle.constructDefault : Vehicle ℝ)) (1 / 10) t _
    (by
      simp only [Vehicle.integrate, hp, hv]
      simpa [Vehicle.constructDefault, Vehicle.construct] using hg)
    (by
      simp only [Vehicle.integrate, hp, hv, hh]
      simp only [Vehicle.constructDefault, Vehicle.construct]
      linarith)
  refine ⟨t, _, ht, rfl, hrun, ?_, ?_, ?_, ?_⟩
  · simp only [hv]; simp [Vehicle.constructDefault, Vehicle.construct]
  · simp only [hv]; simp [Vehicle.constructDefault, Vehicle.construct]
  · simp only [hv]; norm_num [Vehicle.constructDefault, Vehicle.construct]
  · simp only [hv]; norm_num [Vehicle.constructDefault, Vehicle.construct]

/-- C12 (amended): for a vehicle with velocity `(vx, 0, vz)` on a well-formed terrain, after
one frame in which neither the forward nor the backward key is held, `velocity.x` is
`vx * 0.95 * 0.8` and `velocity.z` is `vz * 0.95 * 0.8`; `velocity.y` is `0` when the step
takes the snap branch and `-9.8 * deltaTime` when it takes the gravity branch. -/
theorem frame_released_velocity {α : Type} [LinearOrderedField α] [FloorRing α]
    (m : Libm α) (glm : Glm α) (keys : Keys) (deltaTime : α) (t : Terrain α) (v : Vehicle α)
    (hwf : t.WellFormed) (hup : keys.up = false) (hdown : keys.down = false)
    (hvy : v.velocity.y = 0) :
    ∃ (v' : Vehicle α) (g : α), frame m glm keys deltaTime t v = some v' ∧
      t.getHeight ((processInput m glm keys deltaTime v).integrate deltaTime).x
        ((processInput m glm keys deltaTime v).integrate deltaTime).z = some g ∧
      v'.velocity.x = v.velocity.x * (95 / 100) * (8 / 10) ∧
      v'.velocity.z = v.velocity.z * (95 / 100) * (8 / 10) ∧
      (¬ ((processInput m glm keys deltaTime v).integrate deltaTime).y > g + v.height * (1 / 2) →
        v'.velocity.y = 0) ∧
      (((processInput m glm keys deltaTime v).integrate deltaTime).y > g + v.height * (1 / 2) →
        v'.velocity.y = -(98 / 10 * deltaTime)) := by
  obtain ⟨hp, hh, hv⟩ := processInput_released m glm keys deltaTime v hup hdown
  obtain ⟨g, hg⟩ := Terrain.getHeight_total t hwf
    ((processInput m glm keys deltaTime v).integrate deltaTime).x
    ((processInput m glm keys deltaTime v).integrate deltaTime).z
  by_cases hc : ((processInput m glm keys deltaTime v).integrate deltaTime).y
      > g + (processInput m glm keys deltaTime v).height * (1 / 2)
  · refine ⟨_, g, Vehicle.update_airborne _ deltaTime t g hg hc, hg, ?_, ?_, ?_, ?_⟩
    · simp only [hv]; ring
    · simp only [hv]; ring
    · intro hn; rw [hh] at hc; exact absurd hc hn
    · intro _; simp only [hv, hvy]; ring
  · refine ⟨_, g, Vehicle.update_grounded _ deltaTime t g hg hc, hg, ?_, ?_, ?_, ?_⟩
    · simp only [hv]; ring
    · simp only [hv]; ring
    · intro _; rfl
    · intro hy; rw [hh] at hc; exact absurd hy hc

/-- Witness for `frame_released_velocity`: `sampleVehicle` on `sampleTerrain`, no key held. -/
theorem frame_released_velocity_witness :
    ∃ (v' : Vehicle ℚ) (g : ℚ),
      frame ⟨fun a => a, fun _ => 1⟩ ⟨fun d => d / 60⟩
        { up := false, down := false, left := false, right := false } (1 / 10) sampleTerrain
        sampleVehicle = some v' ∧
      sampleTerrain.getHeight
        ((processInput ⟨fun a => a, fun _ => 1⟩ ⟨fun d => d / 60⟩
          { up := false, down := false, left := false, right := false } (1 / 10)
          sampleVehicle).integrate (1 / 10)).x
        ((processInput ⟨fun a => a, fun _ => 1⟩ ⟨fun d => d / 60⟩
          { up := false, down := false, left := false, right := false } (1 / 10)
          sampleVehicle).integrate (1 / 10)).z = some g ∧
      v'.velocity.x = sampleVehicle.velocity.x * (95 / 100) * (8 / 10) ∧
      v'.velocity.z = sampleVehicle.velocity.z * (95 / 100) * (8 / 10) ∧
      (¬ ((processInput ⟨fun a => a, fun _ => 1⟩ ⟨fun d => d / 60⟩
          { up := false, down := false, left := false, right := false } (1 / 10)
          sampleVehicle).integrate (1 / 10)).y > g + sampleVehicle.height * (1 / 2) →
        v'.velocity.y = 0) ∧
      (((processInput ⟨fun a => a, fun _ => 1⟩ ⟨fun d => d / 60⟩
          { up := false, down := false, left := false, right := false } (1 / 10)
          sampleVehicle).integrate (1 / 10)).y > g + sampleVehicle.height * (1 / 2) →
        v'.velocity.y = -(98 / 10 * (1 / 10))) :=
  frame_released_velocity ⟨fun a => a, fun _ => 1⟩ ⟨fun d => d / 60⟩
    { up := false, down := false, left := false, right := false } (1 / 10) sampleTerrain
    sampleVehicle (by decide) rfl rfl rfl

section SmallTerrain

variable {α : Type} [LinearOrderedField α] [FloorRing α]

/-- With fewer than two columns or fewer than two rows there is no quad: the index buffer is
empty. -/
theorem Terrain.meshIndices_eq_nil (w h : Int) (hsmall : w < 2 ∨ h < 2) :
    Terrain.meshIndices w h = [] := by
  unfold Terrain.meshIndices
  rcases hsmall with hw | hh
  · have h0 : (w - 1).toNat = 0 := by omega
    rw [h0]
    simp
  · have h0 : (h - 1).toNat = 0 := by omega
    rw [h0]
    simp

end SmallTerrain

/-- C13 (counterexample): `Terrain(1, 1)` and `Terrain(0, 5)` are constructed without any
error; the first holds one height sample, one vertex record and no index, the second holds
nothing. -/
theorem construct_small_terrain_succeeds :
    (∃ t : Terrain ℝ, Terrain.construct ⟨Real.sin, Real.cos⟩ 1 1 = some t ∧
      t.heights.length = 1 ∧ t.vertices.length = 8 ∧ t.indices = []) ∧
    (∃ t : Terrain ℝ, Terrain.construct ⟨Real.sin, Real.cos⟩ 0 5 = some t ∧
      t.heights.length = 0 ∧ t.vertices.length = 0 ∧ t.indices = []) := by
  constructor
  · obtain ⟨t, ht, hw, hh, hwf, -, hv, hi⟩ :=
      Terrain.construct_spec (⟨Real.sin, Real.cos⟩ : Libm ℝ) 1 1 (by norm_num)
    have hl := Terrain.length_meshVertices t (by omega) (by omega)
    have hwf' : (t.heights.length : Int) = t.width * t.height := hwf
    rw [hw, hh] at hl hwf'
    refine ⟨t, ht, by omega, by rw [hv]; omega, ?_⟩
    rw [hi]
    exact Terrain.meshIndices_eq_nil 1 1 (Or.inl (by norm_num))
  · obtain ⟨t, ht, hw, hh, hwf, -, hv, hi⟩ :=
      Terrain.construct_spec (⟨Real.sin, Real.cos⟩ : Libm ℝ) 0 5 (by norm_num)
    have hl := Terrain.length_meshVertices t (by omega) (by omega)
    have hwf' : (t.heights.length : Int) = t.width * t.height := hwf
    rw [hw, hh] at hl hwf'
    refine ⟨t, ht, by omega, by rw [hv]; omega, ?_⟩
    rw [hi]
    exact Terrain.meshIndices_eq_nil 0 5 (Or.inl (by norm_num))

/-- C13 (amended): the constructor validates nothing. For `0 ≤ width`, `0 ≤ depth` with
`width < 2` or `depth < 2` it returns a terrain with `width * depth` height samples,
`width * depth` vertex records and an empty index buffer. -/
theorem construct_without_quads {α : Type} [LinearOrderedField α] [FloorRing α]
    (m : Libm α) (w h : Int) (hw : 0 ≤ w) (hh : 0 ≤ h) (hsmall : w < 2 ∨ h < 2) :
    ∃ t : Terrain α, Terrain.construct m w h = some t ∧ t.width = w ∧ t.height = h ∧
      (t.heights.length : Int) = w * h ∧ (t.vertices.length : Int) = 8 * (w * h) ∧
      t.indices = [] := by
  obtain ⟨t, ht, hw', hh', hwf, -, hv, hi⟩ :=
    Terrain.construct_spec m w h (mul_nonneg hw hh)
  have hl := Terrain.length_meshVertices t (by omega) (by omega)
  have hwf' : (t.heights.length : Int) = t.width * t.height := hwf
  rw [hw', hh'] at hl hwf'
  refine ⟨t, ht, hw', hh', hwf', by rw [hv]; exact hl, ?_⟩
  rw [hi]
  exact Terrain.meshIndices_eq_nil w h hsmall

/-- Witness for `construct_without_quads`: `Terrain(1, 1)`. -/
theorem construct_without_quads_witness :
    (0 : Int) ≤ 1 ∧ ((1 : Int) < 2 ∨ (1 : Int) < 2) ∧
    ∃ t : Terrain ℝ, Terrain.construct ⟨Real.sin, Real.cos⟩ 1 1 = some t ∧ t.width = 1 ∧
      t.height = 1 ∧ (t.heights.length : Int) = 1 * 1 ∧
      (t.vertices.length : Int) = 8 * (1 * 1) ∧ t.indices = [] :=
  ⟨by decide, Or.inl (by decide),
    construct_without_quads ⟨Real.sin, Real.cos⟩ 1 1 (by decide) (by decide)
      (Or.inl (by decide))⟩

section CellLemmas

variable {α : Type} [LinearOrderedField α] [FloorRing α]

/-- Past the guard, `getHeight` is `cellHeight` of the truncated coordinates and the
fractional offsets. -/
theorem Terrain.getHeight_eq_cellHeight (t : Terrain α) (x z : α)
    (hg : ¬ t.outOfBounds (floatToInt x) (floatToInt z)) :
    t.getHeight x z = t.cellHeight (floatToInt x) (floatToInt z)
      (x - (floatToInt x : α)) (z - (floatToInt z : α)) := by
  unfold Terrain.getHeight Terrain.cellHeight
  simp only [if_neg hg]

/-- The value of `cellHeight` on a cell inside the guard of a well-formed terrain. -/
theorem Terrain.cellHeight_eq (t : Terrain α) (hwf : t.WellFormed) (gx gz : Int)
    (hx0 : 0 ≤ gx) (hx1 : gx < t.width - 1) (hz0 : 0 ≤ gz) (hz1 : gz < t.height - 1)
    (fx fz : α) :
    t.cellHeight gx gz fx fz = some
      ((t.heights.getD (gz * t.width + gx).toNat 0 * (1 - fx)
          + t.heights.getD (gz * t.width + gx + 1).toNat 0 * fx) * (1 - fz)
        + (t.heights.getD ((gz + 1) * t.width + gx).toNat 0 * (1 - fx)
          + t.heights.getD ((gz + 1) * t.width + gx + 1).toNat 0 * fx) * fz) := by
  have hwf' : (t.heights.length : Int) = t.width * t.height := hwf
  obtain ⟨hlo, hhi⟩ := Terrain.index_bounds t.width t.height _ _ hx0 hx1 hz0 hz1
  have hzw : 0 ≤ gz * t.width := mul_nonneg hz0 (by omega)
  have e00 := vecGet_of_lt t.heights (gz * t.width + gx) (by omega) (by rw [hwf']; nlinarith)
  have e10 := vecGet_of_lt t.heights (gz * t.width + gx + 1) (by omega)
    (by rw [hwf']; nlinarith)
  have e01 := vecGet_of_lt t.heights ((gz + 1) * t.width + gx) (by nlinarith)
    (by rw [hwf']; omega)
  have e11 := vecGet_of_lt t.heights ((gz + 1) * t.width + gx + 1) (by nlinarith)
    (by rw [hwf']; omega)
  unfold Terrain.cellHeight
  simp only [e00, e10, e01, e11, Option.bind_eq_bind, Option.some_bind]
  rfl

theorem floatToInt_of_nonneg (x : α) (h : 0 ≤ x) : floatToInt x = ⌊x⌋ := by
  unfold floatToInt
  rw [if_pos h]

/-- A non-negative coordinate below `n - 1` truncates to a cell index in `[0, n - 1)`. -/
theorem floatToInt_bounds (x : α) (n : Int) (h0 : 0 ≤ x) (h1 : x < (n : α) - 1) :
    0 ≤ floatToInt x ∧ floatToInt x < n - 1 := by
  rw [floatToInt_of_nonneg x h0]
  refine ⟨Int.floor_nonneg.mpr h0, Int.floor_lt.mpr ?_⟩
  push_cast
  exact h1

/-- Just below the integer `g ≥ 1` the truncated coordinate is `g - 1`. -/
theorem floatToInt_below (x : α) (g : Int) (hg : 1 ≤ g) (h0 : (g : α) - 1 ≤ x)
    (h1 : x < (g : α)) : floatToInt x = g - 1 := by
  have hg' : (1 : α) ≤ (g : α) := by exact_mod_cast hg
  rw [floatToInt_of_nonneg x (by linarith), Int.floor_eq_iff]
  push_cast
  constructor <;> linarith

end CellLemmas

/-- C14: on a well-formed terrain with `width, depth ≥ 3`, for an interior grid line
`x = g` (`1 ≤ g ≤ width - 2`) and any `z` with `0 ≤ z < depth - 1`: `getHeight(g, z)` is the
value of cell `g` at offset `0`, the bilinear value of cell `g - 1` at offset `fx = 1` is the
same number, and cell `g - 1` is the one `getHeight` uses for every `x` in `[g - 1, g)`.
Symmetrically for an interior grid line `z = g` at fixed `x`. -/
theorem getHeight_continuous_across_grid_lines {α : Type} [LinearOrderedField α] [FloorRing α]
    (t : Terrain α) (hwf : t.WellFormed) (_hw : 3 ≤ t.width) (_hh : 3 ≤ t.height) :
    (∀ (g : Int) (z : α), 1 ≤ g → g ≤ t.width - 2 → 0 ≤ z → z < (t.height : α) - 1 →
      ∃ v : α, t.getHeight (g : α) z = some v ∧
        t.cellHeight (g - 1) (floatToInt z) 1 (z - (floatToInt z : α)) = some v ∧
        ∀ x : α, (g : α) - 1 ≤ x → x < (g : α) →
          t.getHeight x z
            = t.cellHeight (g - 1) (floatToInt z) (x - ((g - 1 : Int) : α))
                (z - (floatToInt z : α))) ∧
    (∀ (g : Int) (x : α), 1 ≤ g → g ≤ t.height - 2 → 0 ≤ x → x < (t.width : α) - 1 →
      ∃ v : α, t.getHeight x (g : α) = some v ∧
        t.cellHeight (floatToInt x) (g - 1) (x - (floatToInt x : α)) 1 = some v ∧
        ∀ z : α, (g : α) - 1 ≤ z → z < (g : α) →
          t.getHeight x z
            = t.cellHeight (floatToInt x) (g - 1) (x - (floatToInt x : α))
                (z - ((g - 1 : Int) : α))) := by
  constructor
  · intro g z hg1 hg2 hz0 hz1
    obtain ⟨hgz0, hgz1⟩ := floatToInt_bounds z t.height hz0 hz1
    have hcell : ¬ t.outOfBounds (floatToInt (g : α)) (floatToInt z) := by
      rw [floatToInt_intCast]
      unfold Terrain.outOfBounds
      omega
    have e1 : (floatToInt z) * t.width + (g - 1) + 1 = (floatToInt z) * t.width + g := by ring
    have e2 : (floatToInt z + 1) * t.width + (g - 1) + 1
        = (floatToInt z + 1) * t.width + g := by ring
    refine ⟨t.heights.getD (floatToInt z * t.width + g).toNat 0 * (1 - (z - (floatToInt z : α)))
      + t.heights.getD ((floatToInt z + 1) * t.width + g).toNat 0 * (z - (floatToInt z : α)),
      ?_, ?_, ?_⟩
    · rw [Terrain.getHeight_inBounds t hwf _ _ hcell, floatToInt_intCast]
      simp
    · rw [Terrain.cellHeight_eq t hwf (g - 1) (floatToInt z) (by omega) (by omega) hgz0 hgz1,
        e1, e2]
      simp
    · intro x hx0 hx1
      have hfx := floatToInt_below x g hg1 hx0 hx1
      have hcell' : ¬ t.outOfBounds (floatToInt x) (floatToInt z) := by
        rw [hfx]
        unfold Terrain.outOfBounds
        omega
      rw [Terrain.getHeight_eq_cellHeight t x z hcell', hfx]
  · intro g x hg1 hg2 hx0 hx1
    obtain ⟨hgx0, hgx1⟩ := floatToInt_bounds x t.width hx0 hx1
    have hcell : ¬ t.outOfBounds (floatToInt x) (floatToInt (g : α)) := by
      rw [floatToInt_intCast]
      unfold Terrain.outOfBounds
      omega
    have e1 : (g - 1 + 1) * t.width + floatToInt x = g * t.width + floatToInt x := by ring
    refine ⟨t.heights.getD (g * t.width + floatToInt x).toNat 0 * (1 - (x - (floatToInt x : α)))
      + t.heights.getD (g * t.width + floatToInt x + 1).toNat 0 * (x - (floatToInt x : α)),
      ?_, ?_, ?_⟩
    · rw [Terrain.getHeight_inBounds t hwf _ _ hcell, floatToInt_intCast]
      simp
    · rw [Terrain.cellHeight_eq t hwf (floatToInt x) (g - 1) hgx0 hgx1 (by omega) (by omega),
        e1]
      simp
    · intro z hz0 hz1
      have hfz := floatToInt_below z g hg1 hz0 hz1
      have hcell' : ¬ t.outOfBounds (floatToInt x) (floatToInt z) := by
        rw [hfz]
        unfold Terrain.outOfBounds
        omega
      rw [Terrain.getHeight_eq_cellHeight t x z hcell', hfz]

/-- Witness for `getHeight_continuous_across_grid_lines`: the grid line `x = 1` of
`sampleTerrain` at `z = 1/2`. -/
theorem getHeight_continuous_across_grid_lines_witness :
    sampleTerrain.WellFormed ∧ 3 ≤ sampleTerrain.width ∧ 3 ≤ sampleTerrain.height ∧
    ∃ v : ℚ, sampleTerrain.getHeight ((1 : Int) : ℚ) (1 / 2) = some v ∧
      sampleTerrain.cellHeight (1 - 1) (floatToInt (1 / 2 : ℚ)) 1
        (1 / 2 - (floatToInt (1 / 2 : ℚ) : ℚ)) = some v ∧
      ∀ x : ℚ, ((1 : Int) : ℚ) - 1 ≤ x → x < ((1 : Int) : ℚ) →
        sampleTerrain.getHeight x (1 / 2)
          = sampleTerrain.cellHeight (1 - 1) (floatToInt (1 / 2 : ℚ))
              (x - ((1 - 1 : Int) : ℚ)) (1 / 2 - (floatToInt (1 / 2 : ℚ) : ℚ)) :=
  ⟨by decide, by decide, by decide,
    (getHeight_continuous_across_grid_lines sampleTerrain (by decide) (by decide)
      (by decide)).1 1 (1 / 2) (by decide) (by decide) (by norm_num)
      (by norm_num [sampleTerrain])⟩

/-- C15: with the forward key held and the backward key not, `processInput` sets
`velocity.x = -sin(radians(a)) * 10` and `velocity.z = -cos(radians(a)) * 10`, where `a` is
`rotation.y` on entry; with the backward key held and the forward key not, it sets
`velocity.x = sin(radians(a)) * 10` and `velocity.z = cos(radians(a)) * 10`. In both cases
`velocity.y` is unchanged; the previous horizontal velocity and the factor `0.8` do not
occur in the result. -/
theorem processInput_drive {α : Type} [LinearOrderedField α] [FloorRing α]
    (m : Libm α) (glm : Glm α) (keys : Keys) (deltaTime : α) (v : Vehicle α) :
    (keys.up = true → keys.down = false →
      (processInput m glm keys deltaTime v).velocity
        = { x := -m.sin (glm.radians v.rotation.y) * 10
            y := v.velocity.y
            z := -m.cos (glm.radians v.rotation.y) * 10 }) ∧
    (keys.up = false → keys.down = true →
      (processInput m glm keys deltaTime v).velocity
        = { x := m.sin (glm.radians v.rotation.y) * 10
            y := v.velocity.y
            z := m.cos (glm.radians v.rotation.y) * 10 }) := by
  constructor
  · intro hup hdown
    unfold processInput
    simp only [hup, hdown]
    cases keys.left <;> cases keys.right <;> simp
  · intro hup hdown
    unfold processInput
    simp only [hup, hdown]
    cases keys.left <;> cases keys.right <;> simp

/-- Witness for `processInput_drive`: only the forward key held, yaw 90 degrees, previous
velocity `(3, 4, 5)`, with the real sine, cosine and degree-to-radian conversion. -/
theorem processInput_drive_witness :
    (processInput (⟨Real.sin, Real.cos⟩ : Libm ℝ) ⟨fun d => d * (Real.pi / 180)⟩
        { up := true, down := false, left := false, right := false } (1 / 10)
        { position := { x := 50, y := 10, z := 50 }, velocity := { x := 3, y := 4, z := 5 },
          rotation := { x := 0, y := 90, z := 0 }, width := 2, height := 1,
          length := 4 }).velocity
      = { x := -Real.sin (90 * (Real.pi / 180)) * 10
          y := 4
          z := -Real.cos (90 * (Real.pi / 180)) * 10 } :=
  (processInput_drive (⟨Real.sin, Real.cos⟩ : Libm ℝ) ⟨fun d => d * (Real.pi / 180)⟩
    { up := true, down := false, left := false, right := false } (1 / 10)
    { position := { x := 50, y := 10, z := 50 }, velocity := { x := 3, y := 4, z := 5 },
      rotation := { x := 0, y := 90, z := 0 }, width := 2, height := 1, length := 4 }).1 rfl rfl

section ConvexLemmas

variable {α : Type} [LinearOrderedField α] [FloorRing α]

/-- The blend computed by `getHeight` with weights in `[0, 1]` stays between any lower and
upper bound of the four samples. -/
theorem bilinear_between (h00 h10 h01 h11 fx fz lo hi : α)
    (hfx0 : 0 ≤ fx) (hfx1 : fx ≤ 1) (hfz0 : 0 ≤ fz) (hfz1 : fz ≤ 1)
    (l00 : lo ≤ h00) (l10 : lo ≤ h10) (l01 : lo ≤ h01) (l11 : lo ≤ h11)
    (u00 : h00 ≤ hi) (u10 : h10 ≤ hi) (u01 : h01 ≤ hi) (u11 : h11 ≤ hi) :
    lo ≤ (h00 * (1 - fx) + h10 * fx) * (1 - fz) + (h01 * (1 - fx) + h11 * fx) * fz ∧
      (h00 * (1 - fx) + h10 * fx) * (1 - fz) + (h01 * (1 - fx) + h11 * fx) * fz ≤ hi := by
  have a1 : 0 ≤ 1 - fx := sub_nonneg.mpr hfx1
  have a2 : 0 ≤ 1 - fz := sub_nonneg.mpr hfz1
  have w00 : 0 ≤ (1 - fx) * (1 - fz) := mul_nonneg a1 a2
  have w10 : 0 ≤ fx * (1 - fz) := mul_nonneg hfx0 a2
  have w01 : 0 ≤ (1 - fx) * fz := mul_nonneg a1 hfz0
  have w11 : 0 ≤ fx * fz := mul_nonneg hfx0 hfz0
  constructor
  · have p00 := mul_nonneg w00 (sub_nonneg.mpr l00)
    have p10 := mul_nonneg w10 (sub_nonneg.mpr l10)
    have p01 := mul_nonneg w01 (sub_nonneg.mpr l01)
    have p11 := mul_nonneg w11 (sub_nonneg.mpr l11)
    have e : (h00 * (1 - fx) + h10 * fx) * (1 - fz) + (h01 * (1 - fx) + h11 * fx) * fz - lo
        = (1 - fx) * (1 - fz) * (h00 - lo) + fx * (1 - fz) * (h10 - lo)
          + (1 - fx) * fz * (h01 - lo) + fx * fz * (h11 - lo) := by ring
    linarith
  · have p00 := mul_nonneg w00 (sub_nonneg.mpr u00)
    have p10 := mul_nonneg w10 (sub_nonneg.mpr u10)
    have p01 := mul_nonneg w01 (sub_nonneg.mpr u01)
    have p11 := mul_nonneg w11 (sub_nonneg.mpr u11)
    have e : hi - ((h00 * (1 - fx) + h10 * fx) * (1 - fz) + (h01 * (1 - fx) + h11 * fx) * fz)
        = (1 - fx) * (1 - fz) * (hi - h00) + fx * (1 - fz) * (hi - h10)
          + (1 - fx) * fz * (hi - h01) + fx * fz * (hi - h11) := by ring
    linarith

/-- For a non-negative coordinate the offset `x - (int)x` lies in `[0, 1]`. -/
theorem fract_bounds (x : α) (h0 : 0 ≤ x) :
    0 ≤ x - (floatToInt x : α) ∧ x - (floatToInt x : α) ≤ 1 := by
  rw [floatToInt_of_nonneg x h0]
  have h1 := Int.floor_le x
  have h2 := Int.lt_floor_add_one x
  constructor <;> linarith

/-- A terrain returned by the constructor has the requested dimensions. -/
theorem Terrain.construct_dims (m : Libm α) (w h : Int) (t : Terrain α)
    (ht : Terrain.construct m w h = some t) : t.width = w ∧ t.height = h := by
  by_cases hwh : 0 ≤ w * h
  · obtain ⟨t', ht', hw', hh', -⟩ := Terrain.construct_spec m w h hwh
    rw [ht] at ht'
    cases ht'
    exact ⟨hw', hh'⟩
  · have hnone : Terrain.construct m w h = none := by
      unfold Terrain.construct Terrain.generateTerrain vecResize
      simp only [if_pos (not_le.mp hwh)]
      rfl
    rw [hnone] at ht
    cases ht

end ConvexLemmas

/-- C16: on a well-formed terrain, for `0 ≤ x < width - 1` and `0 ≤ z < depth - 1`,
`getHeight(x, z)` reads the four samples around `(x, z)` and its value lies between their
minimum and their maximum; when the terrain was built by the constructor, with sine and
cosine bounded by one, the value is at most `8.75 = 5 + 2.5 + 1.25` in absolute value. -/
theorem getHeight_between_samples {α : Type} [LinearOrderedField α] [FloorRing α]
    (t : Terrain α) (hwf : t.WellFormed) (x z : α)
    (hx0 : 0 ≤ x) (hx1 : x < (t.width : α) - 1) (hz0 : 0 ≤ z) (hz1 : z < (t.height : α) - 1) :
    ∃ h00 h10 h01 h11 g : α,
      vecGet t.heights (floatToInt z * t.width + floatToInt x) = some h00 ∧
      vecGet t.heights (floatToInt z * t.width + (floatToInt x + 1)) = some h10 ∧
      vecGet t.heights ((floatToInt z + 1) * t.width + floatToInt x) = some h01 ∧
      vecGet t.heights ((floatToInt z + 1) * t.width + (floatToInt x + 1)) = some h11 ∧
      t.getHeight x z = some g ∧
      min (min h00 h10) (min h01 h11) ≤ g ∧ g ≤ max (max h00 h10) (max h01 h11) ∧
      (∀ (m : Libm α) (w h : Int), (∀ a, |m.sin a| ≤ 1) → (∀ a, |m.cos a| ≤ 1) →
        Terrain.construct m w h = some t → |g| ≤ 35 / 4) := by
  obtain ⟨hgx0, hgx1⟩ := floatToInt_bounds x t.width hx0 hx1
  obtain ⟨hgz0, hgz1⟩ := floatToInt_bounds z t.height hz0 hz1
  obtain ⟨hfx0, hfx1⟩ := fract_bounds x hx0
  obtain ⟨hfz0, hfz1⟩ := fract_bounds z hz0
  have hg : ¬ t.outOfBounds (floatToInt x) (floatToInt z) := by
    unfold Terrain.outOfBounds
    omega
  have hwf' : (t.heights.length : Int) = t.width * t.height := hwf
  obtain ⟨hlo, hhi⟩ := Terrain.index_bounds t.width t.height _ _ hgx0 hgx1 hgz0 hgz1
  have hzw : 0 ≤ floatToInt z * t.width := mul_nonneg hgz0 (by omega)
  have e00 := vecGet_of_lt t.heights (floatToInt z * t.width + floatToInt x)
    (by omega) (by rw [hwf']; nlinarith)
  have e10 := vecGet_of_lt t.heights (floatToInt z * t.width + (floatToInt x + 1))
    (by omega) (by rw [hwf']; nlinarith)
  have e01 := vecGet_of_lt t.heights ((floatToInt z + 1) * t.width + floatToInt x)
    (by nlinarith) (by rw [hwf']; omega)
  have e11 := vecGet_of_lt t.heights ((floatToInt z + 1) * t.width + (floatToInt x + 1))
    (by nlinarith) (by rw [hwf']; omega)
  have hval := Terrain.getHeight_inBounds t hwf x z hg
  simp only [add_assoc] at hval
  have key := bilinear_between
    (t.heights.getD (floatToInt z * t.width + floatToInt x).toNat 0)
    (t.heights.getD (floatToInt z * t.width + (floatToInt x + 1)).toNat 0)
    (t.heights.getD ((floatToInt z + 1) * t.width + floatToInt x).toNat 0)
    (t.heights.getD ((floatToInt z + 1) * t.width + (floatToInt x + 1)).toNat 0)
    (x - (floatToInt x : α)) (z - (floatToInt z : α))
  have kb := key
    (min (min (t.heights.getD (floatToInt z * t.width + floatToInt x).toNat 0)
        (t.heights.getD (floatToInt z * t.width + (floatToInt x + 1)).toNat 0))
      (min (t.heights.getD ((floatToInt z + 1) * t.width + floatToInt x).toNat 0)
        (t.heights.getD ((floatToInt z + 1) * t.width + (floatToInt x + 1)).toNat 0)))
    (max (max (t.heights.getD (floatToInt z * t.width + floatToInt x).toNat 0)
        (t.heights.getD (floatToInt z * t.width + (floatToInt x + 1)).toNat 0))
      (max (t.heights.getD ((floatToInt z + 1) * t.width + floatToInt x).toNat 0)
        (t.heights.getD ((floatToInt z + 1) * t.width + (floatToInt x + 1)).toNat 0)))
    hfx0 hfx1 hfz0 hfz1
    (le_trans (min_le_left _ _) (min_le_left _ _))
    (le_trans (min_le_left _ _) (min_le_right _ _))
    (le_trans (min_le_right _ _) (min_le_left _ _))
    (le_trans (min_le_right _ _) (min_le_right _ _))
    (le_trans (le_max_left _ _) (le_max_left _ _))
    (le_trans (le_max_right _ _) (le_max_left _ _))
    (le_trans (le_max_left _ _) (le_max_right _ _))
    (le_trans (le_max_right _ _) (le_max_right _ _))
  refine ⟨_, _, _, _, _, e00, e10, e01, e11, hval, kb.1, kb.2, ?_⟩
  intro m w h hsin hcos ht
  obtain ⟨hw, hh⟩ := Terrain.construct_dims m w h t ht
  have hB := Terrain.abs_generateHeight_le m hsin hcos
  obtain ⟨-, -, -, -, s00⟩ := Terrain.construct_sample m w h t ht
    (floatToInt x) (floatToInt z) hgx0 (by omega) hgz0 (by omega)
  obtain ⟨-, -, -, -, s10⟩ := Terrain.construct_sample m w h t ht
    (floatToInt x + 1) (floatToInt z) (by omega) (by omega) hgz0 (by omega)
  obtain ⟨-, -, -, -, s01⟩ := Terrain.construct_sample m w h t ht
    (floatToInt x) (floatToInt z + 1) hgx0 (by omega) (by omega) (by omega)
  obtain ⟨-, -, -, -, s11⟩ := Terrain.construct_sample m w h t ht
    (floatToInt x + 1) (floatToInt z + 1) (by omega) (by omega) (by omega) (by omega)
  rw [← hw] at s00 s10 s01 s11
  have b00 := abs_le.mp (hB (floatToInt x) (floatToInt z))
  have b10 := abs_le.mp (hB (floatToInt x + 1) (floatToInt z))
  have b01 := abs_le.mp (hB (floatToInt x) (floatToInt z + 1))
  have b11 := abs_le.mp (hB (floatToInt x + 1) (floatToInt z + 1))
  rw [← s00] at b00
  rw [← s10] at b10
  rw [← s01] at b01
  rw [← s11] at b11
  have kc := key (-(35 / 4)) (35 / 4) hfx0 hfx1 hfz0 hfz1 b00.1 b10.1 b01.1 b11.1
    b00.2 b10.2 b01.2 b11.2
  exact abs_le.mpr kc

/-- Witness for `getHeight_between_samples`: the terrain of `main` queried at `(50, 50)`. -/
theorem getHeight_between_samples_witness :
    ∃ (t : Terrain ℝ) (h00 h10 h01 h11 g : ℝ),
      Terrain.construct ⟨Real.sin, Real.cos⟩ 100 100 = some t ∧
      vecGet t.heights (floatToInt (50 : ℝ) * t.width + floatToInt (50 : ℝ)) = some h00 ∧
      vecGet t.heights (floatToInt (50 : ℝ) * t.width + (floatToInt (50 : ℝ) + 1)) = some h10 ∧
      vecGet t.heights ((floatToInt (50 : ℝ) + 1) * t.width + floatToInt (50 : ℝ)) = some h01 ∧
      vecGet t.heights ((floatToInt (50 : ℝ) + 1) * t.width + (floatToInt (50 : ℝ) + 1))
        = some h11 ∧
      t.getHeight 50 50 = some g ∧
      min (min h00 h10) (min h01 h11) ≤ g ∧ g ≤ max (max h00 h10) (max h01 h11) ∧
      |g| ≤ 35 / 4 := by
  obtain ⟨t, ht, hwf, -, -⟩ := main_terrain_height_at_start
  obtain ⟨hw, hh⟩ := Terrain.construct_dims _ 100 100 t ht
  obtain ⟨h00, h10, h01, h11, g, e00, e10, e01, e11, hg, hmin, hmax, hgen⟩ :=
    getHeight_between_samples t hwf 50 50 (by norm_num) (by rw [hw]; norm_num)
      (by norm_num) (by rw [hh]; norm_num)
  exact ⟨t, h00, h10, h01, h11, g, ht, e00, e10, e01, e11, hg, hmin, hmax,
    hgen _ 100 100 real_sin_cos_bounded.1 real_sin_cos_bounded.2 ht⟩

end RacingGame
